import Mathlib

/-!
Shallow embedding of the apply/reconciliation engine of the
application-integration management toolkit
(src/internal/cmd/integrations/apply.go).

External collaborators (the REST clients in internal/client/..., the
utils file reader and the JSON codec of the Go standard library) are
modelled as capability oracles gathered in the `Svc` structure; every
remote call issued by the engine is recorded as an `Event` so that the
call pattern of a run can be reasoned about.  File systems are modelled
as lists of directory entries in traversal order; an absent folder is
`none` (the source treats a failed stat as "kind absent").
-/

/-- Go errors are modelled by their message. -/
abbrev GoErr := String

/-- Decides whether `pat` occurs as a contiguous substring of `l`. -/
def listContainsSub (pat l : List Char) : Bool :=
  l.tails.any (fun t => pat.isPrefixOf t)

/-- String wrapper for `listContainsSub`. -/
def containsSub (pat s : String) : Bool :=
  listContainsSub pat.toList s.toList

/-- Model of Go `filepath.Ext`: the suffix of the final path element
starting at its last dot, empty if the final element has no dot. -/
def goFilepathExt (s : String) : String :=
  let seg := s.toList.reverse.takeWhile (fun c => c ≠ '/')
  if seg.any (fun c => c = '.') then
    String.mk ('.' :: (seg.takeWhile (fun c => c ≠ '.')).reverse)
  else ""

/-- Model of `getFilenameWithoutExtension` in apply.go:
`strings.TrimSuffix(filname, filepath.Ext(filname))`. -/
def getFilenameWithoutExtension (s : String) : String :=
  String.mk (s.toList.take (s.toList.length - (goFilepathExt s).toList.length))

/-- Model of Go `filepath.Base` (unix separators): strip trailing
slashes, then keep everything after the last slash. -/
def goFilepathBase (p : String) : String :=
  if p = "" then "."
  else
    let l := (p.toList.reverse.dropWhile (fun c => c = '/')).reverse
    if l = [] then "/"
    else String.mk ((l.reverse.takeWhile (fun c => c ≠ '/')).reverse)

/-- Model of Go `strings.ReplaceAll` on character lists: leftmost,
non-overlapping replacement of `pat` by `rep`.  Structural recursion on
a fuel argument (one unit per consumed character, so fuel equal to the
input length suffices) keeps the definition kernel-reducible. -/
def replChars (pat rep : List Char) : Nat → List Char → List Char
  | _, [] => []
  | 0, l => l
  | fuel + 1, c :: rest =>
    if pat.isPrefixOf (c :: rest) && !pat.isEmpty then
      rep ++ replChars pat rep fuel ((c :: rest).drop pat.length)
    else
      c :: replChars pat rep fuel rest

/-- String wrapper for `replChars`; an empty pattern acts as the
identity, and the engine only uses non-empty patterns. -/
def goReplaceAll (s pat rep : String) : String :=
  String.mk (replChars pat.toList rep.toList s.toList.length s.toList)

/-- Splitter body for Go `strings.Split` with a non-empty separator:
split around each leftmost, non-overlapping occurrence.  Fuel-based
structural recursion as for `replChars`. -/
def splitChars (sep : List Char) : Nat → List Char → List (List Char)
  | _, [] => [[]]
  | 0, l => [l]
  | fuel + 1, c :: rest =>
    if sep.isPrefixOf (c :: rest) && !sep.isEmpty then
      [] :: splitChars sep fuel ((c :: rest).drop sep.length)
    else
      match splitChars sep fuel rest with
      | [] => [[c]]
      | g :: gs => (c :: g) :: gs

/-- Model of Go `strings.Split`: an empty separator explodes the string
into its characters, otherwise `splitChars`. -/
def goSplit (s sep : String) : List String :=
  if sep.toList = [] then s.toList.map (fun c => String.mk [c])
  else (splitChars sep.toList s.toList.length s.toList).map String.mk

/-- The newline escaping performed by the code inliner:
`strings.ReplaceAll(content, "\n", "\\n")`. -/
def escapeNewlines (s : String) : String :=
  goReplaceAll s "\n" "\\n"

/-- Model of `regexp.MustCompile((\S*)\.json).MatchString(name)`: since
the leading group may be empty, a match exists exactly when `.json`
occurs somewhere in the name. -/
def matchesJsonFile (s : String) : Bool :=
  containsSub ".json" s

/-- Drops `pat` from the front of `l`, or fails. -/
def dropPre : List Char → List Char → Option (List Char)
  | [], l => some l
  | _ :: _, [] => none
  | p :: ps, c :: cs => if p = c then dropPre ps cs else none

/-- After the digits of the javascript pattern: one arbitrary
non-newline character (the unescaped dot) followed by the literal
characters `js`. -/
def tailJs : List Char → Bool
  | c :: 'j' :: 's' :: _ => c ≠ '\n'
  | _ => false

/-- After the digits of the jsonnet pattern: one arbitrary non-newline
character followed by the literal characters `jsonnet`. -/
def tailJsonnet : List Char → Bool
  | c :: 'j' :: 's' :: 'o' :: 'n' :: 'n' :: 'e' :: 't' :: _ => c ≠ '\n'
  | _ => false

/-- Does a match of `javascript_\d{1,2}.js` start at the head of `l`? -/
def jsMatchAt (l : List Char) : Bool :=
  match dropPre "javascript_".toList l with
  | none => false
  | some r =>
    match r with
    | [] => false
    | d1 :: rest =>
      d1.isDigit &&
        (tailJs rest ||
          (match rest with
           | d2 :: rest2 => d2.isDigit && tailJs rest2
           | [] => false))

/-- Does a match of `datatransformer_\d{1,2}.jsonnet` start at the head
of `l`? -/
def dtMatchAt (l : List Char) : Bool :=
  match dropPre "datatransformer_".toList l with
  | none => false
  | some r =>
    match r with
    | [] => false
    | d1 :: rest =>
      d1.isDigit &&
        (tailJsonnet rest ||
          (match rest with
           | d2 :: rest2 => d2.isDigit && tailJsonnet rest2
           | [] => false))

/-- Model of `regexp.MustCompile(javascript_\d{1,2}.js).MatchString`:
an unanchored match may start at any position. -/
def matchesJsFile (s : String) : Bool :=
  s.toList.tails.any jsMatchAt

/-- Model of `regexp.MustCompile(datatransformer_\d{1,2}.jsonnet).MatchString`. -/
def matchesJsonnetFile (s : String) : Bool :=
  s.toList.tails.any dtMatchAt

/-- File content together with its readability; `utils.ReadFile` fails
on an unreadable file. -/
structure FC where
  ok : Bool
  content : String
deriving DecidableEq

/-- Model of `utils.ReadFile`. -/
def readFC (fc : FC) : Except GoErr String :=
  if fc.ok then .ok fc.content else .error "read error"

/-- A directory entry seen by `filepath.Walk`, identified by its base
name. -/
structure Entry where
  name : String
  isDir : Bool
  fc : FC
deriving DecidableEq

/-- A JSON object whose fields are strings, as produced by
`json.Unmarshal`; a missing key models a `nil` interface value (for
`map[string]interface{}`) or the empty string (for `map[string]string`). -/
abbrev JsonObj := List (String × String)

/-- Parsed response bytes: `none` models bytes `json.Unmarshal` rejects. -/
abbrev JsonDoc := Option JsonObj

/-- The code map built by `processCodeFolders`: task-type tag to
(ordinal string to inlined code). -/
abbrev CodeMap := List (String × List (String × String))

/-- The integration body submitted to version creation: either the raw
file bytes or the bytes patched by `integrations.SetCode` with a code
map. -/
inductive Body where
  | raw (bytes : String)
  | withCode (bytes : String) (cm : CodeMap)
deriving DecidableEq

/-- One remote call (or log line) issued by an apply run, in order. -/
inductive Event where
  | logInfo (msg : String)
  | logWarning (msg : String)
  | findAuthConfig (name : String)
  | createAuthConfig (content : String)
  | findEndpoint (name : String)
  | createEndpoint (name serviceAttachment : String)
  | getZone (name : String)
  | createZone (name content : String)
  | getConnection (name : String)
  | createConnection (name content : String)
  | getCustomVersion (name version : String)
  | createCustomConnector (name version content : String)
  | getSfdcInstance (name : String)
  | createSfdcInstance (content : String)
  | findSfdcChannel (channel instanceName : String)
  | createSfdcChannel (version content : String)
  | createIntegrationVersion (name : String) (body : Body) (overrides : String)
  | createTestCase (integration version content : String)
  | publishIntegration (name version configVars : String)
  | writeResults (status : String)
deriving DecidableEq

/-- External collaborators consumed by the engine (REST clients of each
resource kind, the JSON codec, the result-file writer).  Each `Option
GoErr` result is `none` on success. -/
structure Svc where
  authconfigsFind : String → String × Option GoErr
  authconfigsCreate : String → Option GoErr
  findEndpoint : String → Bool
  createEndpoint : String → String → Option GoErr
  getZone : String → Option GoErr
  createZone : String → String → Option GoErr
  connectionsGet : String → Option GoErr
  connectionsCreate : String → String → Bool → Bool → Bool → Option GoErr
  getCustomVersion : String → String → Option GoErr
  createCustomWithVersion : String → String → String → Option GoErr
  getInstance : String → Option GoErr
  createInstanceFromContent : String → Option GoErr
  findChannel : String → String → String × Option GoErr
  createChannelFromContent : String → String → Option GoErr
  parseStringMap : String → Option JsonObj
  setCode : String → CodeMap → Option GoErr
  createVersion : String → Body → String → String → Bool → JsonDoc × Option GoErr
  createTestCase : String → String → String → Option GoErr
  publish : String → String → String → Option GoErr
  writeResultsFile : String → String → Option GoErr

/-- Result of one processing step: the events it issued, and the error
it returned (if any). -/
abbrev PRes := List Event × Option GoErr

/-- Model of `getVersion` in apply.go.  The response bytes are taken in
parsed form; the source unmarshals into `map[string]interface{}`, so a
missing `name` key is a nil interface value: it is not equal to the
empty string, and `fmt.Sprintf("%s", nil)` prints `%!s(<nil>)`. -/
def getVersion (respBody : JsonDoc) : Except GoErr String :=
  match respBody with
  | none => .error "unmarshal error"
  | some jsonMap =>
    let nameVal := jsonMap.lookup "name"
    if nameVal = some "" then .error "version not found"
    else
      let printed := match nameVal with
        | some s => s
        | none => "%!s(<nil>)"
      let version := goFilepathBase printed
      if version = "" then .error "version not found"
      else .ok version

/-- Model of `getServiceAttachment` in apply.go: unmarshals into
`map[string]string`, where a missing key reads as the empty string. -/
def getServiceAttachment (parse : String → Option JsonObj) (bytes : String) :
    Except GoErr String :=
  match parse bytes with
  | none => .error "unmarshal error"
  | some m =>
    let sa := (m.lookup "serviceAttachment").getD ""
    if sa = "" then .error "serviceAttachment not found"
    else .ok sa

/-- Walk body of `processAuthConfigs`: for each non-directory entry
matching the JSON pattern, look the auth config up by name (the lookup
error is discarded by the source) and create it only when the returned
version is empty. -/
def authWalk (svc : Svc) : List Entry → PRes
  | [] => ([], none)
  | e :: rest =>
    if e.isDir then authWalk svc rest
    else if matchesJsonFile e.name then
      let nm := getFilenameWithoutExtension e.name
      let evs0 := [Event.logInfo ("Found configuration for authconfig: " ++ e.name),
                   Event.findAuthConfig nm]
      let version := (svc.authconfigsFind nm).1
      if version = "" then
        match readFC e.fc with
        | .error er => (evs0, some er)
        | .ok bytes =>
          match svc.authconfigsCreate bytes with
          | some er =>
            (evs0 ++ [Event.logInfo ("Creating authconfig: " ++ e.name),
                      Event.createAuthConfig bytes], some er)
          | none =>
            let r := authWalk svc rest
            (evs0 ++ Event.logInfo ("Creating authconfig: " ++ e.name) ::
               Event.createAuthConfig bytes :: r.1, r.2)
      else
        let r := authWalk svc rest
        (evs0 ++ Event.logInfo ("Authconfig already exists: " ++ e.name) :: r.1, r.2)
    else authWalk svc rest

/-- Model of `processAuthConfigs`: a folder whose stat fails (or that is
not a directory) is a no-op; otherwise the walk error is returned. -/
def processAuthConfigs (folder : Option (List Entry)) (svc : Svc) : PRes :=
  match folder with
  | none => ([], none)
  | some es => authWalk svc es

/-- Walk body of `processEndpoints`: the JSON pattern gates only the
discovery log; the boolean existence probe and the creation run for
every non-directory entry.  On absence, the service attachment is
extracted from the file's own bytes. -/
def endpointWalk (svc : Svc) : List Entry → PRes
  | [] => ([], none)
  | e :: rest =>
    if e.isDir then endpointWalk svc rest
    else
      let logs := if matchesJsonFile e.name then
          [Event.logInfo ("Found configuration for endpoint attachment: " ++ e.name)]
        else []
      let nm := getFilenameWithoutExtension e.name
      if svc.findEndpoint nm then
        let r := endpointWalk svc rest
        (logs ++ Event.findEndpoint nm ::
           Event.logInfo ("Endpoint already exists: " ++ e.name) :: r.1, r.2)
      else
        match readFC e.fc with
        | .error er => (logs ++ [Event.findEndpoint nm], some er)
        | .ok bytes =>
          match getServiceAttachment svc.parseStringMap bytes with
          | .error er => (logs ++ [Event.findEndpoint nm], some er)
          | .ok sa =>
            match svc.createEndpoint nm sa with
            | some er => (logs ++ [Event.findEndpoint nm, Event.createEndpoint nm sa], some er)
            | none =>
              let r := endpointWalk svc rest
              (logs ++ Event.findEndpoint nm :: Event.createEndpoint nm sa :: r.1, r.2)

/-- Model of `processEndpoints`. -/
def processEndpoints (folder : Option (List Entry)) (svc : Svc) : PRes :=
  match folder with
  | none => ([], none)
  | some es => endpointWalk svc es

/-- Walk body of `processManagedZones`: the JSON pattern gates only the
discovery log; the error-polarity existence probe (an error signals
absence) and the creation run for every non-directory entry. -/
def zoneWalk (svc : Svc) : List Entry → PRes
  | [] => ([], none)
  | e :: rest =>
    if e.isDir then zoneWalk svc rest
    else
      let logs := if matchesJsonFile e.name then
          [Event.logInfo ("Found configuration for managed zone: " ++ e.name)]
        else []
      let nm := getFilenameWithoutExtension e.name
      match svc.getZone nm with
      | some _ =>
        match readFC e.fc with
        | .error er => (logs ++ [Event.getZone nm], some er)
        | .ok bytes =>
          match svc.createZone nm bytes with
          | some er => (logs ++ [Event.getZone nm, Event.createZone nm bytes], some er)
          | none =>
            let r := zoneWalk svc rest
            (logs ++ Event.getZone nm :: Event.createZone nm bytes :: r.1, r.2)
      | none =>
        let r := zoneWalk svc rest
        (logs ++ Event.getZone nm ::
           Event.logInfo ("Zone already exists: " ++ e.name) :: r.1, r.2)

/-- Model of `processManagedZones`. -/
def processManagedZones (folder : Option (List Entry)) (svc : Svc) : PRes :=
  match folder with
  | none => ([], none)
  | some es => zoneWalk svc es

/-- Walk body of `processConnectors`: error-polarity existence probe,
creation forwards the grant-permission / create-secret / wait flags. -/
def connWalk (g c w : Bool) (svc : Svc) : List Entry → PRes
  | [] => ([], none)
  | e :: rest =>
    if e.isDir then connWalk g c w svc rest
    else if matchesJsonFile e.name then
      let nm := getFilenameWithoutExtension e.name
      let evs0 := [Event.logInfo ("Found configuration for connection: " ++ e.name),
                   Event.getConnection nm]
      match svc.connectionsGet nm with
      | some _ =>
        match readFC e.fc with
        | .error er => (evs0, some er)
        | .ok bytes =>
          match svc.connectionsCreate nm bytes g c w with
          | some er =>
            (evs0 ++ [Event.logInfo ("Creating connector: " ++ e.name),
                      Event.createConnection nm bytes], some er)
          | none =>
            let r := connWalk g c w svc rest
            (evs0 ++ Event.logInfo ("Creating connector: " ++ e.name) ::
               Event.createConnection nm bytes :: r.1, r.2)
      | none =>
        let r := connWalk g c w svc rest
        (evs0 ++ Event.logInfo ("Connector already exists: " ++ e.name) :: r.1, r.2)
    else connWalk g c w svc rest

/-- Model of `processConnectors`. -/
def processConnectors (folder : Option (List Entry)) (g c w : Bool) (svc : Svc) : PRes :=
  match folder with
  | none => ([], none)
  | some es => connWalk g c w svc es

/-- Walk body of `processCustomConnectors`: the extension-stripped name
must split into exactly two segments (name, version) under the file
splitter, otherwise the file is skipped silently; the file is read
before the existence probe. -/
def ccWalk (sep : String) (svc : Svc) : List Entry → PRes
  | [] => ([], none)
  | e :: rest =>
    if e.isDir then ccWalk sep svc rest
    else if matchesJsonFile e.name then
      let details := goSplit (getFilenameWithoutExtension e.name) sep
      if details.length = 2 then
        let nm := details.getD 0 ""
        let ver := details.getD 1 ""
        let evs0 := [Event.logInfo ("Found configuration for custom connection: " ++ e.name)]
        match readFC e.fc with
        | .error er => (evs0, some er)
        | .ok bytes =>
          let evs1 := evs0 ++ [Event.logInfo ("Creating custom connector: " ++ e.name),
                               Event.getCustomVersion nm ver]
          match svc.getCustomVersion nm ver with
          | some _ =>
            match svc.createCustomWithVersion nm ver bytes with
            | some er => (evs1 ++ [Event.createCustomConnector nm ver bytes], some er)
            | none =>
              let r := ccWalk sep svc rest
              (evs1 ++ Event.createCustomConnector nm ver bytes :: r.1, r.2)
          | none =>
            let r := ccWalk sep svc rest
            (evs1 ++ Event.logInfo ("Custom Connector already exists: " ++ e.name) :: r.1, r.2)
      else ccWalk sep svc rest
    else ccWalk sep svc rest

/-- Model of `processCustomConnectors`: the source assigns the walk
error to `err` but then ends with `return nil`, so the walk error is
discarded and the step always reports success. -/
def processCustomConnectors (folder : Option (List Entry)) (sep : String) (svc : Svc) : PRes :=
  match folder with
  | none => ([], none)
  | some es => ((ccWalk sep svc es).1, none)

/-- Walk body of `processSfdcInstances`.  On a creation error the source
executes `return nil` inside the walk callback, so the error is
swallowed and the walk continues: both branches of the final match are
deliberately identical. -/
def sfdcInstWalk (svc : Svc) : List Entry → PRes
  | [] => ([], none)
  | e :: rest =>
    if e.isDir then sfdcInstWalk svc rest
    else if matchesJsonFile e.name then
      let nm := getFilenameWithoutExtension e.name
      let evs0 := [Event.logInfo ("Found configuration for sfdc instance: " ++ e.name),
                   Event.getSfdcInstance nm]
      match svc.getInstance nm with
      | some _ =>
        match readFC e.fc with
        | .error er => (evs0, some er)
        | .ok bytes =>
          let evs1 := evs0 ++ [Event.logInfo ("Creating sfdc instance: " ++ e.name),
                               Event.createSfdcInstance bytes]
          let r := sfdcInstWalk svc rest
          match svc.createInstanceFromContent bytes with
          | some _ => (evs1 ++ r.1, r.2)
          | none => (evs1 ++ r.1, r.2)
      | none =>
        let r := sfdcInstWalk svc rest
        (evs0 ++ Event.logInfo ("sfdc instance already exists: " ++ e.name) :: r.1, r.2)
    else sfdcInstWalk svc rest

/-- Model of `processSfdcInstances`. -/
def processSfdcInstances (folder : Option (List Entry)) (svc : Svc) : PRes :=
  match folder with
  | none => ([], none)
  | some es => sfdcInstWalk svc es

/-- Walk body of `processSfdcChannels`.  The file name encodes
`instance<sep>channel`, but the probe is invoked as
`FindChannel(names[1], names[0])`, i.e. (channel, instance).  A name
that does not split into exactly two segments is skipped with a logged
warning.  A creation error is swallowed by `return nil` in the source,
so both branches of the final match are deliberately identical. -/
def sfdcChanWalk (sep : String) (svc : Svc) : List Entry → PRes
  | [] => ([], none)
  | e :: rest =>
    if e.isDir then sfdcChanWalk sep svc rest
    else if matchesJsonFile e.name then
      let found := Event.logInfo ("Found configuration for sfdc channel: " ++ e.name)
      let sfdcNames := goSplit (getFilenameWithoutExtension e.name) sep
      if sfdcNames.length ≠ 2 then
        let r := sfdcChanWalk sep svc rest
        (found :: Event.logWarning ("sfdc channel file " ++ e.name ++
           " does not follow the naming convention") :: r.1, r.2)
      else
        let ch := sfdcNames.getD 1 ""
        let inst := sfdcNames.getD 0 ""
        let (version, ferr) := svc.findChannel ch inst
        match ferr with
        | some _ =>
          match readFC e.fc with
          | .error er => ([found, Event.findSfdcChannel ch inst], some er)
          | .ok bytes =>
            let evs1 := [found, Event.findSfdcChannel ch inst,
                         Event.logInfo ("Creating sfdc channel: " ++ e.name),
                         Event.createSfdcChannel version bytes]
            let r := sfdcChanWalk sep svc rest
            match svc.createChannelFromContent version bytes with
            | some _ => (evs1 ++ r.1, r.2)
            | none => (evs1 ++ r.1, r.2)
        | none =>
          let r := sfdcChanWalk sep svc rest
          (found :: Event.findSfdcChannel ch inst ::
             Event.logInfo ("sfdc channel already exists: " ++ e.name) :: r.1, r.2)
    else sfdcChanWalk sep svc rest

/-- Model of `processSfdcChannels`. -/
def processSfdcChannels (folder : Option (List Entry)) (sep : String) (svc : Svc) : PRes :=
  match folder with
  | none => ([], none)
  | some es => sfdcChanWalk sep svc es

/-- The `src` scaffold folder: its top-level entries plus the two fixed
code sub-folders that `filepath.Walk` recurses into. -/
structure SrcFolder where
  top : List Entry
  javascript : List Entry
  datatransformer : List Entry
deriving DecidableEq

/-- All entries seen when walking the `src` folder; a missing folder
contributes nothing because the source ignores the walk error there. -/
def srcEntriesOf : Option SrcFolder → List Entry
  | none => []
  | some s => s.top ++ s.javascript ++ s.datatransformer

/-- Model of `utils.ReadFile(path.Join(integrationFolder, name))`: the
file is looked up among the top-level entries of the src folder. -/
def readTop (src : Option SrcFolder) (nm : String) : Except GoErr String :=
  match src with
  | none => .error "file not found"
  | some s =>
    match s.top.find? (fun e => e.name == nm && !e.isDir) with
    | none => .error "file not found"
    | some e => readFC e.fc

/-- Go map assignment on an association list: overwrite the existing
binding or append a new one. -/
def insertAssoc (k v : String) : List (String × String) → List (String × String)
  | [] => [(k, v)]
  | (k', v') :: rest => if k' = k then (k, v) :: rest else (k', v') :: insertAssoc k v rest

/-- The non-directory entries of a code folder whose names match the
given pattern, in traversal order. -/
def codeFileEntries (matcher : String → Bool) (es : List Entry) : List Entry :=
  es.filter (fun e => !e.isDir && matcher e.name)

/-- The ordinal key of a code file: its extension-stripped name with
every occurrence of the task tag removed. -/
def codeKeyOf (tag : String) (e : Entry) : String :=
  goReplaceAll (getFilenameWithoutExtension e.name) tag ""

/-- Read loop of the code inliner: each discovered file is read and
stored under its ordinal key with newlines escaped; a read error aborts. -/
def fillBucket (tag : String) : List Entry → List (String × String) →
    Except GoErr (List (String × String))
  | [], b => .ok b
  | e :: rest, b =>
    match readFC e.fc with
    | .error er => .error er
    | .ok bytes =>
      fillBucket tag rest (insertAssoc (codeKeyOf tag e) (escapeNewlines bytes) b)

/-- Model of `processCodeFolders`: both task-type buckets are always
present in the resulting map, even when empty. -/
def processCodeFolders (js jn : List Entry) : List Event × Except GoErr CodeMap :=
  let jsFiles := codeFileEntries matchesJsFile js
  let jsLogs := jsFiles.map (fun e => Event.logInfo ("Found JavaScript file for integration: " ++ e.name))
  match fillBucket "javascript_" jsFiles [] with
  | .error er => (jsLogs, .error er)
  | .ok jsB =>
    let jnFiles := codeFileEntries matchesJsonnetFile jn
    let jnLogs := jnFiles.map (fun e => Event.logInfo ("Found Jsonnet file for integration: " ++ e.name))
    match fillBucket "datatransformer_" jnFiles [] with
    | .error er => (jsLogs ++ jnLogs, .error er)
    | .ok jnB => (jsLogs ++ jnLogs, .ok [("JavaScriptTask", jsB), ("JsonnetMapperTask", jnB)])

/-- Read-and-create loop of `processTestCases`. -/
def tcLoop (svc : Svc) (src : Option SrcFolder) (nm version : String) :
    List String → List Event × Option GoErr
  | [] => ([], none)
  | f :: rest =>
    match readTop src f with
    | .error er => ([], some er)
    | .ok bytes =>
      match svc.createTestCase nm version bytes with
      | some er => ([Event.createTestCase nm version bytes], some er)
      | none =>
        let r := tcLoop svc src nm version rest
        (Event.createTestCase nm version bytes :: r.1, r.2)

/-- Model of `processTestCases`: it walks the same folder that held the
integration definition, collecting every JSON-matching file. -/
def runTestCases (svc : Svc) (src : Option SrcFolder) (nm version : String) :
    List Event × Option GoErr :=
  let files := ((srcEntriesOf src).filter
    (fun e => !e.isDir && matchesJsonFile e.name)).map (·.name)
  let logs := files.map (fun f => Event.logInfo ("Found test case file: " ++ f))
  let r := tcLoop svc src nm version files
  (logs ++ r.1, r.2)

/-- Model of `processIntegration`: overrides load, integration-file
discovery (first JSON-matching file wins), code inlining, version
creation, version-id extraction, test-case attachment, config-variable
lookup, publish, and the optional pipeline result artifact.  The
produced code map always has its two buckets, so `len(codeMap) > 0`
always holds and `SetCode` is always invoked. -/
def processIntegration (svc : Svc) (src : Option SrcFolder) (overrides : Option FC)
    (configVars : List (String × FC)) (pipeline userLabel outputGCSPath : String)
    (grantPermission : Bool) : PRes :=
  let ovRes : Except GoErr String :=
    match overrides with
    | none => .ok ""
    | some fc => readFC fc
  match ovRes with
  | .error er => ([], some er)
  | .ok overridesBytes =>
    let ovLog := if overridesBytes.length > 0 then [Event.logInfo "Found overrides file"] else []
    let intFiles := (srcEntriesOf src).filter (fun e => !e.isDir && matchesJsonFile e.name)
    let foundLogs := intFiles.map
      (fun e => Event.logInfo ("Found configuration for integration: " ++ e.name))
    match intFiles.map (·.name) with
    | [] => (ovLog ++ foundLogs ++ [Event.logWarning "No integration files were found"], none)
    | n0 :: _ =>
      match readTop src n0 with
      | .error er => (ovLog ++ foundLogs, some er)
      | .ok integrationBytes =>
        let js := match src with | none => [] | some s => s.javascript
        let jn := match src with | none => [] | some s => s.datatransformer
        let cf := processCodeFolders js jn
        match cf.2 with
        | .error er => (ovLog ++ foundLogs ++ cf.1, some er)
        | .ok codeMap =>
          let bodyRes : Except GoErr Body :=
            if codeMap.length > 0 then
              match svc.setCode integrationBytes codeMap with
              | some er => .error er
              | none => .ok (Body.withCode integrationBytes codeMap)
            else .ok (Body.raw integrationBytes)
          let name0 := getFilenameWithoutExtension n0
          let evs1 := ovLog ++ foundLogs ++ cf.1 ++
            [Event.logInfo ("Create integration " ++ name0)]
          match bodyRes with
          | .error er => (evs1, some er)
          | .ok body =>
            let cv := svc.createVersion name0 body overridesBytes userLabel grantPermission
            let evs2 := evs1 ++ [Event.createIntegrationVersion name0 body overridesBytes]
            match cv.2 with
            | some er => (evs2, some er)
            | none =>
              match getVersion cv.1 with
              | .error er => (evs2, some er)
              | .ok version =>
                let tc := runTestCases svc src name0 version
                let evs3 := evs2 ++ tc.1
                match tc.2 with
                | some er => (evs3, some er)
                | none =>
                  let evs4 := evs3 ++
                    [Event.logInfo ("Publish integration " ++ name0 ++ " with version " ++ version)]
                  let cfgRes : Except GoErr String :=
                    match configVars.lookup (name0 ++ "-config.json") with
                    | none => .ok ""
                    | some fc => readFC fc
                  match cfgRes with
                  | .error er => (evs4, some er)
                  | .ok configVarBytes =>
                    let evs5 := evs4 ++ [Event.publishIntegration name0 version configVarBytes]
                    match svc.publish name0 version configVarBytes with
                    | some er => (evs5, some er)
                    | none =>
                      if pipeline ≠ "" then
                        (evs5 ++ [Event.writeResults "SUCCEEDED"],
                         svc.writeResultsFile outputGCSPath "SUCCEEDED")
                      else (evs5, none)

/-- The scaffold folder tree seen by one apply run; `none` models an
absent kind folder. -/
structure Scaffold where
  authconfigs : Option (List Entry)
  endpoints : Option (List Entry)
  zones : Option (List Entry)
  customConnectors : Option (List Entry)
  connectors : Option (List Entry)
  sfdcinstances : Option (List Entry)
  sfdcchannels : Option (List Entry)
  src : Option SrcFolder
  overrides : Option FC
  configVars : List (String × FC)

/-- Run-scoped configuration of one apply invocation.  The two splitter
tokens come from the external utils package (`__` by default, `_` in
legacy mode) and are threaded as values. -/
structure Flags where
  skipAuthconfigs : Bool
  skipConnectors : Bool
  useUnderscore : Bool
  grantPermission : Bool
  createSecret : Bool
  waitForConnector : Bool
  pipeline : String
  userLabel : String
  outputGCSPath : String
  defaultSplitter : String
  legacySplitter : String

/-- Sequences two steps: the second runs only when the first returned
no error; events accumulate. -/
def andThen (r : PRes) (k : Unit → PRes) : PRes :=
  match r with
  | (evs, some e) => (evs, some e)
  | (evs, none) => let s := k (); (evs ++ s.1, s.2)

/-- The active file splitter of a run. -/
def splitterOf (fl : Flags) : String :=
  if fl.useUnderscore then fl.legacySplitter else fl.defaultSplitter

/-- Final orchestrator stage: the integration publisher. -/
def stepIntegration (svc : Svc) (s : Scaffold) (fl : Flags) : PRes :=
  processIntegration svc s.src s.overrides s.configVars fl.pipeline fl.userLabel
    fl.outputGCSPath fl.grantPermission

/-- Orchestrator suffix starting at the SFDC channels step. -/
def stepFromSfdcChannels (svc : Svc) (s : Scaffold) (fl : Flags) : PRes :=
  andThen (processSfdcChannels s.sfdcchannels (splitterOf fl) svc)
    (fun _ => stepIntegration svc s fl)

/-- Orchestrator suffix starting at the SFDC instances step. -/
def stepFromSfdcInstances (svc : Svc) (s : Scaffold) (fl : Flags) : PRes :=
  andThen (processSfdcInstances s.sfdcinstances svc)
    (fun _ => stepFromSfdcChannels svc s fl)

/-- Orchestrator suffix starting at the custom-connectors step: the
single skip flag suppresses both the custom-connectors step and the
connectors step. -/
def stepFromConnectors (svc : Svc) (s : Scaffold) (fl : Flags) : PRes :=
  if fl.skipConnectors then
    andThen ([Event.logInfo "Skipping applying connector configuration"], none)
      (fun _ => stepFromSfdcInstances svc s fl)
  else
    andThen (processCustomConnectors s.customConnectors (splitterOf fl) svc)
      (fun _ => andThen
        (processConnectors s.connectors fl.grantPermission fl.createSecret fl.waitForConnector svc)
        (fun _ => stepFromSfdcInstances svc s fl))

/-- Orchestrator suffix starting at the managed-zones step. -/
def stepFromZones (svc : Svc) (s : Scaffold) (fl : Flags) : PRes :=
  andThen (processManagedZones s.zones svc)
    (fun _ => stepFromConnectors svc s fl)

/-- Orchestrator suffix starting at the endpoints step. -/
def stepFromEndpoints (svc : Svc) (s : Scaffold) (fl : Flags) : PRes :=
  andThen (processEndpoints s.endpoints svc)
    (fun _ => stepFromZones svc s fl)

/-- Model of the `RunE` pipeline of the apply command, after flag and
path resolution: auth configs (skippable), endpoints, managed zones,
custom connectors and connectors (skippable together), SFDC instances,
SFDC channels, integration; the first error aborts the remainder. -/
def runApply (svc : Svc) (s : Scaffold) (fl : Flags) : PRes :=
  if fl.skipAuthconfigs then
    andThen ([Event.logInfo "Skipping applying authconfigs configuration"], none)
      (fun _ => stepFromEndpoints svc s fl)
  else
    andThen (processAuthConfigs s.authconfigs svc)
      (fun _ => stepFromEndpoints svc s fl)

/-- The eight resource kinds, in orchestrator order. -/
inductive Kind where
  | auth | endpoint | zone | customConn | conn | sfdcInst | sfdcChan | integ
deriving DecidableEq

/-- The resource kind a remote-call event belongs to; log lines have no
kind. -/
def Event.kind? : Event → Option Kind
  | .findAuthConfig _ => some .auth
  | .createAuthConfig _ => some .auth
  | .findEndpoint _ => some .endpoint
  | .createEndpoint _ _ => some .endpoint
  | .getZone _ => some .zone
  | .createZone _ _ => some .zone
  | .getConnection _ => some .conn
  | .createConnection _ _ => some .conn
  | .getCustomVersion _ _ => some .customConn
  | .createCustomConnector _ _ _ => some .customConn
  | .getSfdcInstance _ => some .sfdcInst
  | .createSfdcInstance _ => some .sfdcInst
  | .findSfdcChannel _ _ => some .sfdcChan
  | .createSfdcChannel _ _ => some .sfdcChan
  | .createIntegrationVersion _ _ _ => some .integ
  | .createTestCase _ _ _ => some .integ
  | .publishIntegration _ _ _ => some .integ
  | .writeResults _ => some .integ
  | _ => none

/-- The position of a kind in the fixed orchestrator order. -/
def kindRank : Kind → Nat
  | .auth => 0
  | .endpoint => 1
  | .zone => 2
  | .customConn => 3
  | .conn => 4
  | .sfdcInst => 5
  | .sfdcChan => 6
  | .integ => 7

/-- The kinds of the remote calls in a trace, in order. -/
def kindsOf (l : List Event) : List Kind :=
  l.filterMap Event.kind?

/-- The remote-call events of a trace (log lines removed). -/
def remoteEvents (l : List Event) : List Event :=
  l.filter (fun e => (Event.kind? e).isSome)

/-- Is the event a create call of one of the seven probed resource
kinds? -/
def isResourceCreate : Event → Bool
  | .createAuthConfig _ => true
  | .createEndpoint _ _ => true
  | .createZone _ _ => true
  | .createConnection _ _ => true
  | .createCustomConnector _ _ _ => true
  | .createSfdcInstance _ => true
  | .createSfdcChannel _ _ => true
  | _ => false

/-- The resource-create events of a trace. -/
def createEvents (l : List Event) : List Event :=
  l.filter isResourceCreate

/-- Number of test-case-create calls in a trace. -/
def countTestCaseCalls (l : List Event) : Nat :=
  (l.filter (fun e => match e with | .createTestCase _ _ _ => true | _ => false)).length

/-- Number of version-create calls in a trace. -/
def countVersionCreates (l : List Event) : Nat :=
  (l.filter (fun e => match e with | .createIntegrationVersion _ _ _ => true | _ => false)).length

/-- Number of publish calls in a trace. -/
def countPublishes (l : List Event) : Nat :=
  (l.filter (fun e => match e with | .publishIntegration _ _ _ => true | _ => false)).length

/-- A collaborator assembly where every probe reports absence, every
creation succeeds, and version creation answers with a well-formed
name.  Used to instantiate scenarios. -/
def svcHappy : Svc where
  authconfigsFind := fun _ => ("", none)
  authconfigsCreate := fun _ => none
  findEndpoint := fun _ => false
  createEndpoint := fun _ _ => none
  getZone := fun _ => some "zone not found"
  createZone := fun _ _ => none
  connectionsGet := fun _ => some "connection not found"
  connectionsCreate := fun _ _ _ _ _ => none
  getCustomVersion := fun _ _ => some "custom connector not found"
  createCustomWithVersion := fun _ _ _ => none
  getInstance := fun _ => some "instance not found"
  createInstanceFromContent := fun _ => none
  findChannel := fun _ _ => ("", some "channel not found")
  createChannelFromContent := fun _ _ => none
  parseStringMap := fun _ => some [("serviceAttachment", "sa")]
  setCode := fun _ _ => none
  createVersion := fun _ _ _ _ _ => (some [("name", "projects/p/versions/1")], none)
  createTestCase := fun _ _ _ => none
  publish := fun _ _ _ => none
  writeResultsFile := fun _ _ => none

/-- A readable file content. -/
def fcOf (s : String) : FC := ⟨true, s⟩

/-- A scaffold with every kind folder absent. -/
def emptyScaffold : Scaffold :=
  ⟨none, none, none, none, none, none, none, none, none, []⟩

/-- Default flags: nothing skipped, default splitter `__`, legacy `_`,
no pipeline. -/
def defFlags : Flags :=
  ⟨false, false, false, false, false, false, "", "", "", "__", "_"⟩

/-- Collaborators where SFDC-instance, SFDC-channel and
custom-connector creation fail while every probe reports absence. -/
def svcCreateFail : Svc :=
  { svcHappy with
    createInstanceFromContent := fun _ => some "create instance failed"
    createChannelFromContent := fun _ _ => some "create channel failed"
    createCustomWithVersion := fun _ _ _ => some "create custom connector failed" }

/-- C1: the claim states that any error of a create call is fatal, in
particular for SFDC instances, SFDC channels and custom connectors.
The code contradicts this: with collaborators whose create calls fail,
each of these three process steps still returns no error, the SFDC
instance walk even continues to the next file (the second create call
is issued after the first failed), and a whole apply run over such a
scaffold reports success. -/
theorem c1_create_errors_swallowed :
    (processSfdcInstances
       (some [⟨"i1.json", false, fcOf "a"⟩, ⟨"i2.json", false, fcOf "b"⟩]) svcCreateFail).2 = none
    ∧ Event.createSfdcInstance "b" ∈
        (processSfdcInstances
          (some [⟨"i1.json", false, fcOf "a"⟩, ⟨"i2.json", false, fcOf "b"⟩]) svcCreateFail).1
    ∧ (processSfdcChannels (some [⟨"in__ch.json", false, fcOf "c"⟩]) "__" svcCreateFail).2 = none
    ∧ Event.createSfdcChannel "" "c" ∈
        (processSfdcChannels (some [⟨"in__ch.json", false, fcOf "c"⟩]) "__" svcCreateFail).1
    ∧ (processCustomConnectors (some [⟨"n__v.json", false, fcOf "d"⟩]) "__" svcCreateFail).2 = none
    ∧ Event.createCustomConnector "n" "v" "d" ∈
        (processCustomConnectors (some [⟨"n__v.json", false, fcOf "d"⟩]) "__" svcCreateFail).1
    ∧ (runApply svcCreateFail
        { emptyScaffold with sfdcinstances := some [⟨"i1.json", false, fcOf "a"⟩] }
        defFlags).2 = none := by
  decide

/-- C2: `getVersion` on a body whose `name` is a versions path returns
the last segment, and on an empty `name` it fails; but on a body with
no `name` field the nil interface value is not the empty string, so the
code returns `%!s(<nil>)` without an error instead of failing. -/
theorem c2_getVersion_eval :
    getVersion (some [("name", "projects/p/locations/l/integrations/i/versions/42")])
      = Except.ok "42"
    ∧ getVersion (some [("name", "")]) = Except.error "version not found"
    ∧ getVersion (some [("other", "x")]) = Except.ok "%!s(<nil>)"
    ∧ getVersion (some []) = Except.ok "%!s(<nil>)" :=
  ⟨rfl, rfl, rfl, rfl⟩

/-- The src folder of the single-integration scenario: one integration
definition file, one JavaScript file `javascript_1.js` containing
`return 1;`, and nothing else. -/
def srcC3 (nm body : String) : SrcFolder :=
  ⟨[⟨nm, false, fcOf body⟩], [⟨"javascript_1.js", false, fcOf "return 1;"⟩], []⟩

/-- The scaffold of the single-integration scenario. -/
def scaffoldC3 (nm body : String) : Scaffold :=
  { emptyScaffold with src := some (srcC3 nm body) }

/-- C3 counterexample: in the single-integration scenario the claim
asserts zero test-case-create calls, but the test-case locator walks
the same src folder with the same JSON pattern as the integration
locator, so the integration definition file itself is submitted as a
test case: the run issues one test-case-create call, not zero. -/
theorem c3_testcase_count_counterexample :
    countTestCaseCalls (runApply svcHappy (scaffoldC3 "sample.json" "INTBODY") defFlags).1 ≠ 0 := by
  decide

/-- Collaborators where the endpoint probe reports presence. -/
def svcEndpointExists : Svc := { svcHappy with findEndpoint := fun _ => true }

/-- A non-directory entry whose name does not match the JSON pattern. -/
def entryTxt : Entry := ⟨"readme.txt", false, fcOf "x"⟩

/-- C4 counterexample: the claim says a remote call is issued only for
entries matching the kind's file pattern, for every kind including
endpoints; but for the file `readme.txt`, which does not match, the
endpoints step still issues an existence probe. -/
theorem c4_probe_without_match_counterexample :
    matchesJsonFile "readme.txt" = false
    ∧ Event.findEndpoint "readme" ∈ (processEndpoints (some [entryTxt]) svcEndpointExists).1 := by
  decide

/-- C4 amended: for auth configs, connectors, custom connectors, SFDC
instances and SFDC channels, a non-directory entry whose name does not
contain `.json` is skipped entirely (it contributes no event and no
error); for endpoints and managed zones the pattern gates only the
discovery log, and the existence probe is issued for every
non-directory entry regardless of its name. -/
theorem c4_pattern_gating (svc : Svc) (sep : String) (g c w : Bool)
    (es : List Entry) (e : Entry)
    (h1 : matchesJsonFile e.name = false) (h2 : e.isDir = false) :
    processAuthConfigs (some (e :: es)) svc = processAuthConfigs (some es) svc
    ∧ processConnectors (some (e :: es)) g c w svc = processConnectors (some es) g c w svc
    ∧ processCustomConnectors (some (e :: es)) sep svc = processCustomConnectors (some es) sep svc
    ∧ processSfdcInstances (some (e :: es)) svc = processSfdcInstances (some es) svc
    ∧ processSfdcChannels (some (e :: es)) sep svc = processSfdcChannels (some es) sep svc
    ∧ Event.findEndpoint (getFilenameWithoutExtension e.name) ∈
        (processEndpoints (some (e :: es)) svc).1
    ∧ Event.getZone (getFilenameWithoutExtension e.name) ∈
        (processManagedZones (some (e :: es)) svc).1 := by
  refine ⟨?_, ?_, ?_, ?_, ?_, ?_, ?_⟩
  · simp [processAuthConfigs, authWalk, h1, h2]
  · simp [processConnectors, connWalk, h1, h2]
  · simp [processCustomConnectors, ccWalk, h1, h2]
  · simp [processSfdcInstances, sfdcInstWalk, h1, h2]
  · simp [processSfdcChannels, sfdcChanWalk, h1, h2]
  · simp only [processEndpoints, endpointWalk, h1, h2, if_false, Bool.false_eq_true,
      ite_false]
    split
    · simp
    · split
      · simp
      · split
        · simp
        · split <;> simp
  · simp only [processManagedZones, zoneWalk, h1, h2, if_false, Bool.false_eq_true,
      ite_false]
    split
    · split
      · simp
      · split <;> simp
    · simp

/-- C4 witness: the amended statement instantiated at `readme.txt`. -/
theorem c4_pattern_gating_witness :
    matchesJsonFile "readme.txt" = false
    ∧ processAuthConfigs (some [entryTxt]) svcHappy = processAuthConfigs (some []) svcHappy :=
  ⟨by decide,
   (c4_pattern_gating svcHappy "__" false false false [] entryTxt (by decide) (by decide)).1⟩

/-- C6: for an SFDC channel file whose extension-stripped name splits
under the active separator into exactly (instanceSegment,
channelSegment) in file-name order, the existence probe is invoked with
the two segments in inverted order: FindChannel(channelSegment,
instanceSegment). -/
theorem c6_channel_probe_inverted (sep : String) (svc : Svc) (es : List Entry) (e : Entry)
    (a b : String)
    (h1 : e.isDir = false) (h2 : matchesJsonFile e.name = true)
    (h3 : goSplit (getFilenameWithoutExtension e.name) sep = [a, b]) :
    Event.findSfdcChannel b a ∈ (processSfdcChannels (some (e :: es)) sep svc).1 := by
  rcases hfc : svc.findChannel b a with ⟨version, ferr⟩
  simp only [processSfdcChannels, sfdcChanWalk, h1, h2, h3, Bool.false_eq_true, if_false,
    List.length_cons, List.length_nil, List.getD_cons_succ, List.getD_cons_zero,
    Nat.zero_add, if_true, hfc]
  norm_num
  cases ferr with
  | none => simp
  | some er =>
    rcases hrd : readFC e.fc with er' | bytes <;> simp only [hrd]
    · simp
    · cases svc.createChannelFromContent version bytes <;> simp

/-- C7: an SFDC channel or custom connector file whose
extension-stripped name does not split into exactly two segments under
the active separator causes no probe and no create call and no error;
SFDC channels log a warning for it, custom connectors skip it silently
(the head entry contributes no event at all). -/
theorem c7_bad_split_skip (sep : String) (svc : Svc) (es : List Entry) (e : Entry)
    (h1 : e.isDir = false) (h2 : matchesJsonFile e.name = true)
    (h3 : (goSplit (getFilenameWithoutExtension e.name) sep).length ≠ 2) :
    processSfdcChannels (some (e :: es)) sep svc =
      (Event.logInfo ("Found configuration for sfdc channel: " ++ e.name) ::
         Event.logWarning ("sfdc channel file " ++ e.name ++
           " does not follow the naming convention") ::
         (processSfdcChannels (some es) sep svc).1,
       (processSfdcChannels (some es) sep svc).2)
    ∧ processCustomConnectors (some (e :: es)) sep svc =
        processCustomConnectors (some es) sep svc := by
  constructor
  · simp [processSfdcChannels, sfdcChanWalk, h1, h2, h3]
  · simp [processCustomConnectors, ccWalk, h1, h2, h3]

/-- C6 and C7 share no theorem; this witness instantiates C6 at the
channel file `inst__chan.json` under the default separator. -/
theorem c6_channel_probe_inverted_witness :
    goSplit (getFilenameWithoutExtension "inst__chan.json") "__" = ["inst", "chan"]
    ∧ Event.findSfdcChannel "chan" "inst" ∈
        (processSfdcChannels (some [⟨"inst__chan.json", false, fcOf "c"⟩]) "__" svcHappy).1 :=
  ⟨by decide,
   c6_channel_probe_inverted "__" svcHappy [] ⟨"inst__chan.json", false, fcOf "c"⟩
     "inst" "chan" (by decide) (by decide) (by decide)⟩

/-- C7 witness: instantiated at `a_b_c.json` under the legacy
single-underscore separator, whose stem splits into three segments. -/
theorem c7_bad_split_skip_witness :
    (goSplit (getFilenameWithoutExtension "a_b_c.json") "_").length ≠ 2
    ∧ processCustomConnectors (some [⟨"a_b_c.json", false, fcOf "d"⟩]) "_" svcHappy =
        processCustomConnectors (some []) "_" svcHappy :=
  ⟨by decide,
   (c7_bad_split_skip "_" svcHappy [] ⟨"a_b_c.json", false, fcOf "d"⟩
     (by decide) (by decide) (by decide)).2⟩

/-- Helper for C10: the auth-config walk depends on the lookup
collaborator only through the version component of its result; the
error component is discarded by the source (`version, _ :=
authconfigs.Find(...)`). -/
theorem authWalk_lookup_congr (svc : Svc) (f g : String → String × Option GoErr)
    (hfg : ∀ n, (f n).1 = (g n).1) :
    ∀ es, authWalk { svc with authconfigsFind := f } es
      = authWalk { svc with authconfigsFind := g } es := by
  intro es
  induction es with
  | nil => rfl
  | cons e t ih => simp only [authWalk, hfg, ih]

/-- C10: the auth-configs step discards the lookup error entirely: two
lookup collaborators agreeing on the version string (whatever their
error components) produce identical step behaviour, and whenever the
returned version is empty the create call is attempted. -/
theorem c10_authconfig_lookup_error_discarded (svc : Svc)
    (f g : String → String × Option GoErr) (folder : Option (List Entry))
    (es : List Entry) (e : Entry)
    (hfg : ∀ n, (f n).1 = (g n).1)
    (h1 : e.isDir = false) (h2 : matchesJsonFile e.name = true)
    (hv : (f (getFilenameWithoutExtension e.name)).1 = "")
    (hok : e.fc.ok = true) :
    processAuthConfigs folder { svc with authconfigsFind := f }
      = processAuthConfigs folder { svc with authconfigsFind := g }
    ∧ Event.createAuthConfig e.fc.content ∈
        (processAuthConfigs (some (e :: es)) { svc with authconfigsFind := f }).1 := by
  constructor
  · cases folder with
    | none => rfl
    | some es' => exact authWalk_lookup_congr svc f g hfg es'
  · simp only [processAuthConfigs, authWalk, h1, h2, hv, readFC, hok, Bool.false_eq_true,
      if_false, if_true, ite_true]
    cases Svc.authconfigsCreate { svc with authconfigsFind := f } e.fc.content <;> simp

/-- An auth-config lookup that reports the empty version together with
an error. -/
def findEmptyWithError : String → String × Option GoErr := fun _ => ("", some "lookup failed")

/-- An auth-config lookup that reports the empty version without an
error. -/
def findEmptyNoError : String → String × Option GoErr := fun _ => ("", none)

/-- C10 witness: instantiated with a lookup that fails with an error
and the empty version, against one that succeeds with the empty
version. -/
theorem c10_witness :
    (∀ n, (findEmptyWithError n).1 = (findEmptyNoError n).1)
    ∧ processAuthConfigs (some [⟨"a.json", false, fcOf "body"⟩])
        { svcHappy with authconfigsFind := findEmptyWithError }
      = processAuthConfigs (some [⟨"a.json", false, fcOf "body"⟩])
        { svcHappy with authconfigsFind := findEmptyNoError } :=
  ⟨fun _ => rfl,
   (c10_authconfig_lookup_error_discarded svcHappy
     findEmptyWithError findEmptyNoError
     (some [⟨"a.json", false, fcOf "body"⟩]) [] ⟨"a.json", false, fcOf "body"⟩
     (fun _ => rfl) (by decide) (by decide) (by decide) (by decide)).1⟩

/-- Filtering resource creates distributes over append. -/
theorem createEvents_append (a b : List Event) :
    createEvents (a ++ b) = createEvents a ++ createEvents b := by
  simp [createEvents]

/-- An info log is not a resource create. -/
theorem createEvents_cons_logInfo (m : String) (l : List Event) :
    createEvents (Event.logInfo m :: l) = createEvents l := rfl

/-- A warning log is not a resource create. -/
theorem createEvents_cons_logWarning (m : String) (l : List Event) :
    createEvents (Event.logWarning m :: l) = createEvents l := rfl

/-- An auth-config probe is not a resource create. -/
theorem createEvents_cons_findAuthConfig (n : String) (l : List Event) :
    createEvents (Event.findAuthConfig n :: l) = createEvents l := rfl

/-- An endpoint probe is not a resource create. -/
theorem createEvents_cons_findEndpoint (n : String) (l : List Event) :
    createEvents (Event.findEndpoint n :: l) = createEvents l := rfl

/-- A zone probe is not a resource create. -/
theorem createEvents_cons_getZone (n : String) (l : List Event) :
    createEvents (Event.getZone n :: l) = createEvents l := rfl

/-- A connection probe is not a resource create. -/
theorem createEvents_cons_getConnection (n : String) (l : List Event) :
    createEvents (Event.getConnection n :: l) = createEvents l := rfl

/-- A custom-connector probe is not a resource create. -/
theorem createEvents_cons_getCustomVersion (n v : String) (l : List Event) :
    createEvents (Event.getCustomVersion n v :: l) = createEvents l := rfl

/-- An SFDC-instance probe is not a resource create. -/
theorem createEvents_cons_getSfdcInstance (n : String) (l : List Event) :
    createEvents (Event.getSfdcInstance n :: l) = createEvents l := rfl

/-- An SFDC-channel probe is not a resource create. -/
theorem createEvents_cons_findSfdcChannel (a b : String) (l : List Event) :
    createEvents (Event.findSfdcChannel a b :: l) = createEvents l := rfl

/-- Helper for C5: when every matching file's auth-config lookup
reports a non-empty version, the auth-config walk issues no create call
and returns no error. -/
theorem authWalk_no_creates (svc : Svc) :
    ∀ es : List Entry,
      (∀ e ∈ es, e.isDir = false → matchesJsonFile e.name = true →
        (svc.authconfigsFind (getFilenameWithoutExtension e.name)).1 ≠ "") →
      createEvents (authWalk svc es).1 = [] ∧ (authWalk svc es).2 = none := by
  intro es
  induction es with
  | nil => exact fun _ => ⟨rfl, rfl⟩
  | cons e t ih =>
    intro h
    have ht := fun e' he' => h e' (List.mem_cons_of_mem _ he')
    obtain ⟨ih1, ih2⟩ := ih ht
    by_cases hd : e.isDir = true
    · simpa [authWalk, hd] using ⟨ih1, ih2⟩
    · have hd' : e.isDir = false := by simp at hd; exact hd
      by_cases hm : matchesJsonFile e.name = true
      · have hv := h e (List.mem_cons_self _ _) hd' hm
        simp [authWalk, hd', hm, hv, createEvents_append, createEvents_cons_logInfo,
          createEvents_cons_findAuthConfig, ih1, ih2]
      · have hm' : matchesJsonFile e.name = false := by simp at hm; exact hm
        simpa [authWalk, hd', hm'] using ⟨ih1, ih2⟩

/-- Helper for C5: when every matching file's connection lookup
succeeds (the connection exists), the connector walk issues no create
call and returns no error. -/
theorem connWalk_no_creates (g c w : Bool) (svc : Svc) :
    ∀ es : List Entry,
      (∀ e ∈ es, e.isDir = false → matchesJsonFile e.name = true →
        svc.connectionsGet (getFilenameWithoutExtension e.name) = none) →
      createEvents (connWalk g c w svc es).1 = [] ∧ (connWalk g c w svc es).2 = none := by
  intro es
  induction es with
  | nil => exact fun _ => ⟨rfl, rfl⟩
  | cons e t ih =>
    intro h
    have ht := fun e' he' => h e' (List.mem_cons_of_mem _ he')
    obtain ⟨ih1, ih2⟩ := ih ht
    by_cases hd : e.isDir = true
    · simpa [connWalk, hd] using ⟨ih1, ih2⟩
    · have hd' : e.isDir = false := by simp at hd; exact hd
      by_cases hm : matchesJsonFile e.name = true
      · have hv := h e (List.mem_cons_self _ _) hd' hm
        simp [connWalk, hd', hm, hv, createEvents_append, createEvents_cons_logInfo,
          createEvents_cons_getConnection, ih1, ih2]
      · have hm' : matchesJsonFile e.name = false := by simp at hm; exact hm
        simpa [connWalk, hd', hm'] using ⟨ih1, ih2⟩

/-- The extension-stripped names of the matching files of a folder, in
traversal order: after a completed first run these identifiers exist
remotely. -/
def matchedStems (es : List Entry) : List String :=
  (es.filter (fun e => !e.isDir && matchesJsonFile e.name)).map
    (fun e => getFilenameWithoutExtension e.name)

/-- An auth-config lookup backed by a world of existing identifiers:
present identifiers report version `1`, absent ones the empty version. -/
def worldAuthFind (w : List String) : String → String × Option GoErr :=
  fun n => (if n ∈ w then "1" else "", none)

/-- A connection lookup backed by a world of existing identifiers:
present identifiers succeed, absent ones return an error. -/
def worldConnGet (w : List String) : String → Option GoErr :=
  fun n => if n ∈ w then none else some "connection not found"

/-- C5: for every probed resource kind, a file whose identifier the
kind's existence probe reports as existing contributes no create call
and no error (its processing reduces to a probe-and-skip, and the walk
continues with the rest); when every matching file of a folder already
exists, the whole auth-config or connector step issues zero create
calls and succeeds; and in particular a second run whose probes are
backed by a world containing the first run's created identifiers issues
zero create calls. -/
theorem c5_idempotence (svc : Svc) (g c w : Bool) (sep : String)
    (e : Entry) (rest es : List Entry) (w0 : List String) (nm ver : String)
    (hd : e.isDir = false) (hm : matchesJsonFile e.name = true)
    (hok : e.fc.ok = true)
    (hA : (svc.authconfigsFind (getFilenameWithoutExtension e.name)).1 ≠ "")
    (hE : svc.findEndpoint (getFilenameWithoutExtension e.name) = true)
    (hZ : svc.getZone (getFilenameWithoutExtension e.name) = none)
    (hC : svc.connectionsGet (getFilenameWithoutExtension e.name) = none)
    (hS : svc.getInstance (getFilenameWithoutExtension e.name) = none)
    (hSplit : goSplit (getFilenameWithoutExtension e.name) sep = [nm, ver])
    (hCC : svc.getCustomVersion nm ver = none)
    (hCh : (svc.findChannel ver nm).2 = none)
    (hAllA : ∀ e' ∈ es, e'.isDir = false → matchesJsonFile e'.name = true →
      (svc.authconfigsFind (getFilenameWithoutExtension e'.name)).1 ≠ "")
    (hAllC : ∀ e' ∈ es, e'.isDir = false → matchesJsonFile e'.name = true →
      svc.connectionsGet (getFilenameWithoutExtension e'.name) = none) :
    (createEvents (processAuthConfigs (some (e :: rest)) svc).1
       = createEvents (processAuthConfigs (some rest) svc).1
     ∧ (processAuthConfigs (some (e :: rest)) svc).2 = (processAuthConfigs (some rest) svc).2)
    ∧ (createEvents (processEndpoints (some (e :: rest)) svc).1
       = createEvents (processEndpoints (some rest) svc).1
     ∧ (processEndpoints (some (e :: rest)) svc).2 = (processEndpoints (some rest) svc).2)
    ∧ (createEvents (processManagedZones (some (e :: rest)) svc).1
       = createEvents (processManagedZones (some rest) svc).1
     ∧ (processManagedZones (some (e :: rest)) svc).2 = (processManagedZones (some rest) svc).2)
    ∧ (createEvents (processConnectors (some (e :: rest)) g c w svc).1
       = createEvents (processConnectors (some rest) g c w svc).1
     ∧ (processConnectors (some (e :: rest)) g c w svc).2
       = (processConnectors (some rest) g c w svc).2)
    ∧ (createEvents (processCustomConnectors (some (e :: rest)) sep svc).1
       = createEvents (processCustomConnectors (some rest) sep svc).1
     ∧ (processCustomConnectors (some (e :: rest)) sep svc).2
       = (processCustomConnectors (some rest) sep svc).2)
    ∧ (createEvents (processSfdcInstances (some (e :: rest)) svc).1
       = createEvents (processSfdcInstances (some rest) svc).1
     ∧ (processSfdcInstances (some (e :: rest)) svc).2 = (processSfdcInstances (some rest) svc).2)
    ∧ (createEvents (processSfdcChannels (some (e :: rest)) sep svc).1
       = createEvents (processSfdcChannels (some rest) sep svc).1
     ∧ (processSfdcChannels (some (e :: rest)) sep svc).2
       = (processSfdcChannels (some rest) sep svc).2)
    ∧ (createEvents (processAuthConfigs (some es) svc).1 = []
       ∧ (processAuthConfigs (some es) svc).2 = none)
    ∧ (createEvents (processConnectors (some es) g c w svc).1 = []
       ∧ (processConnectors (some es) g c w svc).2 = none)
    ∧ createEvents (processAuthConfigs (some es)
        { svc with authconfigsFind := worldAuthFind (w0 ++ matchedStems es) }).1 = []
    ∧ createEvents (processConnectors (some es) g c w
        { svc with connectionsGet := worldConnGet (w0 ++ matchedStems es) }).1 = [] := by
  have hmem : ∀ e' ∈ es, e'.isDir = false → matchesJsonFile e'.name = true →
      getFilenameWithoutExtension e'.name ∈ w0 ++ matchedStems es := by
    intro e' he' hd' hm'
    refine List.mem_append_right _ ?_
    exact List.mem_map_of_mem _ (List.mem_filter.mpr ⟨he', by simp [hd', hm']⟩)
  refine ⟨?_, ?_, ?_, ?_, ?_, ?_, ?_, ?_, ?_, ?_, ?_⟩
  · constructor <;>
      simp [processAuthConfigs, authWalk, hd, hm, hA, createEvents_append,
        createEvents_cons_logInfo, createEvents_cons_findAuthConfig]
  · constructor <;>
      simp [processEndpoints, endpointWalk, hd, hm, hE, createEvents_append,
        createEvents_cons_logInfo, createEvents_cons_findEndpoint]
  · constructor <;>
      simp [processManagedZones, zoneWalk, hd, hm, hZ, createEvents_append,
        createEvents_cons_logInfo, createEvents_cons_getZone]
  · constructor <;>
      simp [processConnectors, connWalk, hd, hm, hC, createEvents_append,
        createEvents_cons_logInfo, createEvents_cons_getConnection]
  · constructor <;>
      simp [processCustomConnectors, ccWalk, hd, hm, hSplit, readFC, hok, hCC,
        createEvents_append, createEvents_cons_logInfo, createEvents_cons_getCustomVersion]
  · constructor <;>
      simp [processSfdcInstances, sfdcInstWalk, hd, hm, hS, createEvents_append,
        createEvents_cons_logInfo, createEvents_cons_getSfdcInstance]
  · rcases hfc : svc.findChannel ver nm with ⟨v, fe⟩
    have hfe : fe = none := by rw [hfc] at hCh; exact hCh
    subst hfe
    constructor <;>
      simp [processSfdcChannels, sfdcChanWalk, hd, hm, hSplit, hfc, createEvents_append,
        createEvents_cons_logInfo, createEvents_cons_findSfdcChannel]
  · exact authWalk_no_creates svc es hAllA
  · exact connWalk_no_creates g c w svc es hAllC
  · refine (authWalk_no_creates _ es ?_).1
    intro e' he' hd' hm'
    simp [worldAuthFind, hmem e' he' hd' hm']
  · refine (connWalk_no_creates g c w _ es ?_).1
    intro e' he' hd' hm'
    simp [worldConnGet, hmem e' he' hd' hm']

/-- Collaborators where every existence probe reports presence. -/
def svcAllExist : Svc :=
  { svcHappy with
    authconfigsFind := fun _ => ("1", none)
    findEndpoint := fun _ => true
    getZone := fun _ => none
    connectionsGet := fun _ => none
    getInstance := fun _ => none
    getCustomVersion := fun _ _ => none
    findChannel := fun _ _ => ("v", none) }

/-- An entry whose stem splits into two segments under `__`. -/
def entryAB : Entry := ⟨"a__b.json", false, fcOf "x"⟩

/-- C5 witness: with all probes reporting presence, the auth-config
step over one file issues zero create calls. -/
theorem c5_idempotence_witness :
    ((svcAllExist.authconfigsFind (getFilenameWithoutExtension "a__b.json")).1 ≠ "")
    ∧ createEvents (processAuthConfigs (some [entryAB]) svcAllExist).1 = [] :=
  ⟨by decide,
   ((c5_idempotence svcAllExist false false false "__" entryAB [] [entryAB] [] "a" "b"
      (by decide) (by decide) (by decide) (by decide) (by decide) (by decide) (by decide)
      (by decide) (by decide) (by decide) (by decide) (by decide)
      (by decide)).2.2.2.2.2.2.2.1).1⟩

/-- The extension of a canonical JavaScript code file name is `.js`,
whatever the ordinal part is. -/
theorem ext_of_js_name (d : String) :
    goFilepathExt ("javascript_" ++ d ++ ".js") = ".js" := by
  unfold goFilepathExt
  have hlist : ("javascript_" ++ d ++ ".js").toList
      = "javascript_".toList ++ d.toList ++ ['.', 'j', 's'] := by
    simp [String.toList, String.data_append]
  rw [hlist]
  simp [List.reverse_append, List.takeWhile_cons]

/-- The extension-stripped name of a canonical JavaScript code file is
the tag plus the ordinal. -/
theorem stem_of_js_name (d : String) :
    getFilenameWithoutExtension ("javascript_" ++ d ++ ".js") = "javascript_" ++ d := by
  unfold getFilenameWithoutExtension
  rw [ext_of_js_name]
  have hlist : ("javascript_" ++ d ++ ".js").toList
      = ("javascript_" ++ d).toList ++ ['.', 'j', 's'] := by
    simp [String.toList, String.data_append]
  rw [hlist]
  have hlen : (("javascript_" ++ d).toList ++ ['.', 'j', 's']).length
      - (".js".toList).length = ("javascript_" ++ d).toList.length := by
    simp
  rw [hlen, List.take_left]
  rfl

/-- One replacement step at a position where the pattern is an exact
prefix. -/
theorem replChars_cons_prefix (pat rep tl : List Char) (f : Nat) (hne : pat ≠ []) :
    replChars pat rep (f + 1) (pat ++ tl) = rep ++ replChars pat rep f tl := by
  cases pat with
  | nil => exact absurd rfl hne
  | cons p ps =>
    show replChars (p :: ps) rep (f + 1) (p :: (ps ++ tl)) = _
    rw [replChars]
    have hpre : (p :: ps).isPrefixOf (p :: (ps ++ tl)) = true := by
      rw [List.isPrefixOf_iff_prefix]
      exact List.prefix_append _ _
    simp only [hpre, List.isEmpty_cons, Bool.not_false, Bool.and_self, if_true, ite_true]
    have hdrop : (p :: (ps ++ tl)).drop (p :: ps).length = tl := by
      have hdl := List.drop_left (p :: ps) tl
      simp at hdl
      simp [hdl]
    rw [hdrop]

/-- Replacement with a pattern starting in a non-digit character leaves
a list of digits unchanged. -/
theorem replChars_digit_id (p : Char) (ps rep : List Char) (hp : p.isDigit = false) :
    ∀ fuel d, (∀ c ∈ d, c.isDigit = true) → replChars (p :: ps) rep fuel d = d := by
  intro fuel
  induction fuel with
  | zero => intro d _; cases d <;> rfl
  | succ f ih =>
    intro d hd
    cases d with
    | nil => rfl
    | cons c rest =>
      have hc : c.isDigit = true := hd c (List.mem_cons_self _ _)
      have hpc : (p == c) = false := by
        by_contra hne
        have : p = c := by
          cases hb : p == c
          · exact absurd hb hne
          · exact eq_of_beq hb
        rw [this, hc] at hp
        exact Bool.true_eq_false ▸ (hp ▸ rfl)
      rw [replChars]
      have hpre : (p :: ps).isPrefixOf (c :: rest) = false := by
        show (p == c && List.isPrefixOf ps rest) = false
        simp [hpc]
      simp only [hpre, Bool.false_and, if_false, ite_false]
      rw [ih rest (fun c' hc' => hd c' (List.mem_cons_of_mem _ hc'))]
      simp

/-- Stripping the tag from a canonical code-file stem yields exactly
the ordinal, provided the ordinal is made of digits. -/
theorem codeKey_of_js_name (e : Entry) (d : String)
    (hname : e.name = "javascript_" ++ d ++ ".js")
    (hd2 : ∀ c ∈ d.toList, c.isDigit = true) :
    codeKeyOf "javascript_" e = d := by
  unfold codeKeyOf goReplaceAll
  rw [hname, stem_of_js_name]
  have hl : ("javascript_" ++ d).toList = "javascript_".toList ++ d.toList := by
    simp [String.toList, String.data_append]
  rw [hl]
  have hpat : "javascript_".toList = ['j','a','v','a','s','c','r','i','p','t','_'] := rfl
  have hlen : ("javascript_".toList ++ d.toList).length = (10 + d.toList.length) + 1 := by
    rw [hpat]; simp; omega
  rw [hlen, replChars_cons_prefix _ _ _ _ (by rw [hpat]; simp)]
  rw [hpat]
  rw [replChars_digit_id 'j' _ _ (by decide) _ _ hd2]
  simp [String.toList]

/-- Looking up the inserted key finds the inserted value. -/
theorem lookup_insertAssoc_self (k v : String) :
    ∀ b, (insertAssoc k v b).lookup k = some v := by
  intro b
  induction b with
  | nil => simp [insertAssoc, List.lookup]
  | cons kv rest ih =>
    obtain ⟨k', v'⟩ := kv
    by_cases h : k' = k
    · subst h; simp [insertAssoc, List.lookup]
    · have hbeq : (k == k') = false := by
        cases hb : k == k'
        · rfl
        · exact absurd (eq_of_beq hb).symm h
      simp [insertAssoc, h, List.lookup, hbeq, ih]

/-- Looking up a different key is unaffected by an insertion. -/
theorem lookup_insertAssoc_ne (k v k' : String) (h : k' ≠ k) :
    ∀ b, (insertAssoc k v b).lookup k' = b.lookup k' := by
  intro b
  have hbeq : (k' == k) = false := by
    cases hb : k' == k
    · rfl
    · exact absurd (eq_of_beq hb) h
  induction b with
  | nil => simp [insertAssoc, List.lookup, hbeq]
  | cons kv rest ih =>
    obtain ⟨k0, v0⟩ := kv
    by_cases h0 : k0 = k
    · subst h0; simp [insertAssoc, List.lookup, hbeq]
    · simp [insertAssoc, h0, List.lookup, ih]

/-- A bucket fill over files whose keys all differ from `k` succeeds
and leaves the binding of `k` unchanged. -/
theorem fillBucket_preserves (tag k : String) :
    ∀ (l : List Entry) (b : List (String × String)),
      (∀ x ∈ l, x.fc.ok = true) → (∀ x ∈ l, codeKeyOf tag x ≠ k) →
      ∃ b', fillBucket tag l b = .ok b' ∧ b'.lookup k = b.lookup k := by
  intro l
  induction l with
  | nil => exact fun b _ _ => ⟨b, rfl, rfl⟩
  | cons x t ih =>
    intro b hok hne
    have hx : x.fc.ok = true := hok x (List.mem_cons_self _ _)
    obtain ⟨b', hb', hl⟩ := ih (insertAssoc (codeKeyOf tag x) (escapeNewlines x.fc.content) b)
      (fun y hy => hok y (List.mem_cons_of_mem _ hy))
      (fun y hy => hne y (List.mem_cons_of_mem _ hy))
    refine ⟨b', ?_, ?_⟩
    · simp [fillBucket, readFC, hx, hb']
    · rw [hl, lookup_insertAssoc_ne _ _ _ (Ne.symm (hne x (List.mem_cons_self _ _)))]

/-- A bucket fill over readable files always succeeds. -/
theorem fillBucket_ok (tag : String) :
    ∀ (l : List Entry) (b : List (String × String)),
      (∀ x ∈ l, x.fc.ok = true) →
      ∃ b', fillBucket tag l b = .ok b' := by
  intro l
  induction l with
  | nil => exact fun b _ => ⟨b, rfl⟩
  | cons x t ih =>
    intro b hok
    have hx : x.fc.ok = true := hok x (List.mem_cons_self _ _)
    obtain ⟨b', hb'⟩ := ih (insertAssoc (codeKeyOf tag x) (escapeNewlines x.fc.content) b)
      (fun y hy => hok y (List.mem_cons_of_mem _ hy))
    exact ⟨b', by simp [fillBucket, readFC, hx, hb']⟩

/-- After a bucket fill, the binding of a discovered file's key whose
later files all use other keys is that file's escaped content. -/
theorem fillBucket_lookup_last (tag : String) :
    ∀ (l1 : List Entry) (e : Entry) (l2 : List Entry) (b : List (String × String)),
      (∀ x ∈ l1 ++ e :: l2, x.fc.ok = true) →
      (∀ x ∈ l2, codeKeyOf tag x ≠ codeKeyOf tag e) →
      ∃ b', fillBucket tag (l1 ++ e :: l2) b = .ok b'
        ∧ b'.lookup (codeKeyOf tag e) = some (escapeNewlines e.fc.content) := by
  intro l1
  induction l1 with
  | nil =>
    intro e l2 b hok hne
    have he : e.fc.ok = true := hok e (List.mem_cons_self _ _)
    obtain ⟨b', hb', hl⟩ := fillBucket_preserves tag (codeKeyOf tag e) l2
      (insertAssoc (codeKeyOf tag e) (escapeNewlines e.fc.content) b)
      (fun y hy => hok y (List.mem_cons_of_mem _ hy)) hne
    refine ⟨b', ?_, ?_⟩
    · simpa [fillBucket, readFC, he] using hb'
    · rw [hl, lookup_insertAssoc_self]
  | cons a t ih =>
    intro e l2 b hok hne
    have ha : a.fc.ok = true := hok a (List.mem_cons_self _ _)
    obtain ⟨b', hb', hl⟩ := ih e l2
      (insertAssoc (codeKeyOf tag a) (escapeNewlines a.fc.content) b)
      (fun y hy => hok y (List.mem_cons_of_mem _ hy)) hne
    refine ⟨b', ?_, hl⟩
    simpa [fillBucket, readFC, ha] using hb'

/-- Replacing a single character that does not occur leaves the list
unchanged. -/
theorem replChars_single_id (p : Char) (rep : List Char) :
    ∀ fuel l, p ∉ l → replChars [p] rep fuel l = l := by
  intro fuel
  induction fuel with
  | zero => intro l _; cases l <;> rfl
  | succ f ih =>
    intro l hp
    cases l with
    | nil => rfl
    | cons c rest =>
      have hpc : (p == c) = false := by
        cases hb : p == c
        · rfl
        · have hpeq : p = c := eq_of_beq hb
          subst hpeq
          exact absurd (List.mem_cons_self p rest) hp
      rw [replChars]
      have hpre : List.isPrefixOf [p] (c :: rest) = false := by
        show (p == c && List.isPrefixOf [] rest) = false
        simp [hpc]
      simp only [hpre, Bool.false_and, if_false, ite_false]
      rw [ih rest (fun hmem => hp (List.mem_cons_of_mem _ hmem))]
      simp

/-- A file with no newline character inlines unchanged. -/
theorem escapeNewlines_id (s : String) (h : '\n' ∉ s.toList) :
    escapeNewlines s = s := by
  unfold escapeNewlines goReplaceAll
  have hpat : "\n".toList = ['\n'] := rfl
  rw [hpat, replChars_single_id '\n' _ _ _ h]
  rfl

/-- The extension of a canonical Jsonnet transform file name is
`.jsonnet`, whatever the ordinal part is. -/
theorem ext_of_jsonnet_name (d : String) :
    goFilepathExt ("datatransformer_" ++ d ++ ".jsonnet") = ".jsonnet" := by
  unfold goFilepathExt
  have hlist : ("datatransformer_" ++ d ++ ".jsonnet").toList
      = "datatransformer_".toList ++ d.toList ++ ['.', 'j', 's', 'o', 'n', 'n', 'e', 't'] := by
    simp [String.toList, String.data_append]
  rw [hlist]
  simp [List.reverse_append, List.takeWhile_cons]

/-- The extension-stripped name of a canonical Jsonnet transform file
is the tag plus the ordinal. -/
theorem stem_of_jsonnet_name (d : String) :
    getFilenameWithoutExtension ("datatransformer_" ++ d ++ ".jsonnet")
      = "datatransformer_" ++ d := by
  unfold getFilenameWithoutExtension
  rw [ext_of_jsonnet_name]
  have hlist : ("datatransformer_" ++ d ++ ".jsonnet").toList
      = ("datatransformer_" ++ d).toList ++ ['.', 'j', 's', 'o', 'n', 'n', 'e', 't'] := by
    simp [String.toList, String.data_append]
  rw [hlist]
  have hlen : (("datatransformer_" ++ d).toList ++ ['.', 'j', 's', 'o', 'n', 'n', 'e', 't']).length
      - (".jsonnet".toList).length = ("datatransformer_" ++ d).toList.length := by
    simp
  rw [hlen, List.take_left]
  rfl

/-- Stripping the Jsonnet tag from a canonical transform-file stem
yields exactly the ordinal, provided the ordinal is made of digits. -/
theorem codeKey_of_jsonnet_name (e : Entry) (d : String)
    (hname : e.name = "datatransformer_" ++ d ++ ".jsonnet")
    (hd2 : ∀ c ∈ d.toList, c.isDigit = true) :
    codeKeyOf "datatransformer_" e = d := by
  unfold codeKeyOf goReplaceAll
  rw [hname, stem_of_jsonnet_name]
  have hl : ("datatransformer_" ++ d).toList = "datatransformer_".toList ++ d.toList := by
    simp [String.toList, String.data_append]
  rw [hl]
  have hpat : "datatransformer_".toList
      = ['d','a','t','a','t','r','a','n','s','f','o','r','m','e','r','_'] := rfl
  have hlen : ("datatransformer_".toList ++ d.toList).length = (15 + d.toList.length) + 1 := by
    rw [hpat]; simp; omega
  rw [hlen, replChars_cons_prefix _ _ _ _ (by rw [hpat]; simp)]
  rw [hpat]
  rw [replChars_digit_id 'd' _ _ (by decide) _ _ hd2]
  simp [String.toList]

/-- C8: every code file discovered by the code inliner — in either the
JavaScript or the Jsonnet sub-folder — is stored, under its task-type
bucket and keyed by its numeric ordinal string, as the file's content
with every newline replaced by the two-character sequence backslash-n;
content without newlines is stored unchanged.  (Each file shown is the
last discovered holder of its key, matching the Go map-assignment
semantics.) -/
theorem c8_code_inline_entry (js jn : List Entry) (l1 l2 jl1 jl2 : List Entry)
    (e ej : Entry) (d dj : String)
    (hsplit : codeFileEntries matchesJsFile js = l1 ++ e :: l2)
    (hjsplit : codeFileEntries matchesJsonnetFile jn = jl1 ++ ej :: jl2)
    (hjsok : ∀ x ∈ codeFileEntries matchesJsFile js, x.fc.ok = true)
    (hjnok : ∀ x ∈ codeFileEntries matchesJsonnetFile jn, x.fc.ok = true)
    (hlast : ∀ x ∈ l2, codeKeyOf "javascript_" x ≠ codeKeyOf "javascript_" e)
    (hjlast : ∀ x ∈ jl2, codeKeyOf "datatransformer_" x ≠ codeKeyOf "datatransformer_" ej)
    (hname : e.name = "javascript_" ++ d ++ ".js")
    (hjname : ej.name = "datatransformer_" ++ dj ++ ".jsonnet")
    (hdig : ∀ c ∈ d.toList, c.isDigit = true)
    (hjdig : ∀ c ∈ dj.toList, c.isDigit = true) :
    ∃ jsB jnB, (processCodeFolders js jn).2
        = .ok [("JavaScriptTask", jsB), ("JsonnetMapperTask", jnB)]
      ∧ jsB.lookup d = some (escapeNewlines e.fc.content)
      ∧ jnB.lookup dj = some (escapeNewlines ej.fc.content)
      ∧ ('\n' ∉ e.fc.content.toList → escapeNewlines e.fc.content = e.fc.content)
      ∧ ('\n' ∉ ej.fc.content.toList → escapeNewlines ej.fc.content = ej.fc.content) := by
  have hkey := codeKey_of_js_name e d hname hdig
  have hjkey := codeKey_of_jsonnet_name ej dj hjname hjdig
  obtain ⟨jsB, hjs, hlook⟩ := fillBucket_lookup_last "javascript_" l1 e l2 []
    (hsplit ▸ hjsok) hlast
  obtain ⟨jnB, hjn, hjlook⟩ := fillBucket_lookup_last "datatransformer_" jl1 ej jl2 []
    (hjsplit ▸ hjnok) hjlast
  refine ⟨jsB, jnB, ?_, ?_, ?_,
    fun hnl => escapeNewlines_id _ hnl, fun hnl => escapeNewlines_id _ hnl⟩
  · simp [processCodeFolders, hsplit, hjsplit, hjs, hjn]
  · rw [← hkey]; exact hlook
  · rw [← hjkey]; exact hjlook

/-- The scenario's JavaScript code file. -/
def jsEntry1 : Entry := ⟨"javascript_1.js", false, fcOf "return 1;"⟩

/-- A Jsonnet transform file for the code-inliner witness. -/
def dtEntry2 : Entry := ⟨"datatransformer_2.jsonnet", false, fcOf "x + 1"⟩

/-- C8 witness: the inliner over `javascript_1.js` containing
`return 1;` and `datatransformer_2.jsonnet` containing `x + 1` stores
both contents unchanged under their buckets and ordinals. -/
theorem c8_code_inline_entry_witness :
    codeFileEntries matchesJsFile [jsEntry1] = [] ++ jsEntry1 :: []
    ∧ codeFileEntries matchesJsonnetFile [dtEntry2] = [] ++ dtEntry2 :: []
    ∧ ∃ jsB jnB, (processCodeFolders [jsEntry1] [dtEntry2]).2
        = .ok [("JavaScriptTask", jsB), ("JsonnetMapperTask", jnB)]
      ∧ jsB.lookup "1" = some (escapeNewlines jsEntry1.fc.content)
      ∧ jnB.lookup "2" = some (escapeNewlines dtEntry2.fc.content)
      ∧ ('\n' ∉ jsEntry1.fc.content.toList →
          escapeNewlines jsEntry1.fc.content = jsEntry1.fc.content)
      ∧ ('\n' ∉ dtEntry2.fc.content.toList →
          escapeNewlines dtEntry2.fc.content = dtEntry2.fc.content) :=
  ⟨by decide, by decide,
   c8_code_inline_entry [jsEntry1] [dtEntry2] [] [] [] [] jsEntry1 dtEntry2 "1" "2"
     (by decide) (by decide) (by decide) (by decide) (by decide) (by decide)
     (by decide) (by decide) (by decide) (by decide)⟩

/-- C3 amended: over a scaffold whose src folder holds exactly one
integration definition file and the JavaScript file `javascript_1.js`
containing `return 1;`, an apply run issues exactly one version-create
call whose body carries JavaScriptTask ordinal `1` set to `return 1;`,
exactly one test-case-create call (the integration definition file
itself is matched by the test-case locator and submitted as a test
case), one publish call, and succeeds. -/
theorem c3_apply_scenario (nm body : String) (hm : matchesJsonFile nm = true) :
    countVersionCreates (runApply svcHappy (scaffoldC3 nm body) defFlags).1 = 1
    ∧ Event.createIntegrationVersion (getFilenameWithoutExtension nm)
        (Body.withCode body [("JavaScriptTask", [("1", "return 1;")]),
          ("JsonnetMapperTask", [])]) ""
        ∈ (runApply svcHappy (scaffoldC3 nm body) defFlags).1
    ∧ countTestCaseCalls (runApply svcHappy (scaffoldC3 nm body) defFlags).1 = 1
    ∧ countPublishes (runApply svcHappy (scaffoldC3 nm body) defFlags).1 = 1
    ∧ (runApply svcHappy (scaffoldC3 nm body) defFlags).2 = none := by
  have hjsmatch : matchesJsonFile "javascript_1.js" = false := by decide
  have hcf : processCodeFolders [⟨"javascript_1.js", false, ⟨true, "return 1;"⟩⟩] []
      = ([Event.logInfo "Found JavaScript file for integration: javascript_1.js"],
         .ok [("JavaScriptTask", [("1", "return 1;")]), ("JsonnetMapperTask", [])]) := rfl
  have hgv : getVersion (some [("name", "projects/p/versions/1")]) = Except.ok "1" := rfl
  have hrun : runApply svcHappy (scaffoldC3 nm body) defFlags =
      ([Event.logInfo ("Found configuration for integration: " ++ nm),
        Event.logInfo "Found JavaScript file for integration: javascript_1.js",
        Event.logInfo ("Create integration " ++ getFilenameWithoutExtension nm),
        Event.createIntegrationVersion (getFilenameWithoutExtension nm)
          (Body.withCode body [("JavaScriptTask", [("1", "return 1;")]),
            ("JsonnetMapperTask", [])]) "",
        Event.logInfo ("Found test case file: " ++ nm),
        Event.createTestCase (getFilenameWithoutExtension nm) "1" body,
        Event.logInfo ("Publish integration " ++ getFilenameWithoutExtension nm
          ++ " with version " ++ "1"),
        Event.publishIntegration (getFilenameWithoutExtension nm) "1" ""], none) := by
    simp [runApply, defFlags, scaffoldC3, emptyScaffold, stepFromEndpoints, stepFromZones,
      stepFromConnectors, stepFromSfdcInstances, stepFromSfdcChannels, stepIntegration,
      processAuthConfigs, processEndpoints, processManagedZones, processCustomConnectors,
      processConnectors, processSfdcInstances, processSfdcChannels, andThen,
      processIntegration, srcC3, srcEntriesOf, readTop, readFC, fcOf, hm, hjsmatch, hcf,
      runTestCases, tcLoop, svcHappy, hgv]
  refine ⟨?_, ?_, ?_, ?_, ?_⟩ <;>
    simp [hrun, countVersionCreates, countTestCaseCalls, countPublishes]

/-- C3 witness: the amended scenario instantiated at the integration
file `sample.json`. -/
theorem c3_apply_scenario_witness :
    matchesJsonFile "sample.json" = true
    ∧ countVersionCreates (runApply svcHappy (scaffoldC3 "sample.json" "INTBODY") defFlags).1 = 1 :=
  ⟨by decide, (c3_apply_scenario "sample.json" "INTBODY" (by decide)).1⟩

/-- Does an event belong to kind `K` (log lines belong to every kind)? -/
def kindOK (K : Kind) (ev : Event) : Bool :=
  match Event.kind? ev with
  | none => true
  | some k => k == K

/-- Do all remote calls of a trace belong to kind `K`? -/
def kindsAll (K : Kind) (l : List Event) : Bool :=
  l.all (kindOK K)

/-- A trace whose remote calls all belong to `K` yields only `K` in
`kindsOf`. -/
theorem kindsAll_mem (K : Kind) (l : List Event) (h : kindsAll K l = true) :
    ∀ x ∈ kindsOf l, x = K := by
  intro x hx
  obtain ⟨ev, hev, hk⟩ := List.mem_filterMap.mp hx
  have hok := (List.all_eq_true.mp h) ev hev
  unfold kindOK at hok
  rw [hk] at hok
  exact eq_of_beq hok

/-- Homogeneous kind lists are sorted by rank. -/
theorem pairwise_of_all_eq (K : Kind) (m : List Kind) (h : ∀ x ∈ m, x = K) :
    m.Pairwise (fun a b => kindRank a ≤ kindRank b) := by
  induction m with
  | nil => exact List.Pairwise.nil
  | cons a t ih =>
    refine List.Pairwise.cons ?_ (ih (fun x hx => h x (List.mem_cons_of_mem _ hx)))
    intro b hb
    rw [h a (List.mem_cons_self _ _), h b (List.mem_cons_of_mem _ hb)]

/-- The remote-call kinds of a sequenced step. -/
theorem kindsOf_andThen (r : PRes) (k : Unit → PRes) :
    kindsOf (andThen r k).1
      = kindsOf r.1 ++ (match r.2 with | some _ => [] | none => kindsOf (k ()).1) := by
  rcases r with ⟨evs, err⟩
  cases err <;> simp [andThen, kindsOf]

/-- Sequencing a homogeneous step of kind `K` before a sorted tail of
ranks at least `kindRank K` is sorted, and keeps all ranks at least
`m ≤ kindRank K`. -/
theorem sorted_andThen (r : PRes) (k : Unit → PRes) (K : Kind) (m : Nat)
    (hm : m ≤ kindRank K)
    (h1 : kindsAll K r.1 = true)
    (h2 : (kindsOf (k ()).1).Pairwise (fun a b => kindRank a ≤ kindRank b))
    (h3 : ∀ x ∈ kindsOf (k ()).1, kindRank K ≤ kindRank x) :
    (kindsOf (andThen r k).1).Pairwise (fun a b => kindRank a ≤ kindRank b)
    ∧ ∀ x ∈ kindsOf (andThen r k).1, m ≤ kindRank x := by
  have hall := kindsAll_mem K r.1 h1
  rw [kindsOf_andThen]
  rcases r with ⟨evs, err⟩
  cases err with
  | some e =>
    simp only []
    constructor
    · exact List.pairwise_append.mpr ⟨pairwise_of_all_eq K _ hall, List.Pairwise.nil, by simp⟩
    · intro x hx
      rw [List.mem_append] at hx
      rcases hx with hx | hx
      · rw [hall x hx]; exact hm
      · simp at hx
  | none =>
    simp only []
    constructor
    · refine List.pairwise_append.mpr ⟨pairwise_of_all_eq K _ hall, h2, ?_⟩
      intro a ha b hb
      rw [hall a ha]
      exact h3 b hb
    · intro x hx
      rw [List.mem_append] at hx
      rcases hx with hx | hx
      · rw [hall x hx]; exact hm
      · exact le_trans (le_trans hm (h3 x hx)) (le_refl _)

/-- The auth-config walk issues only auth-kind remote calls. -/
theorem authWalk_kinds (svc : Svc) : ∀ es, kindsAll Kind.auth (authWalk svc es).1 = true := by
  intro es
  induction es with
  | nil => rfl
  | cons e t ih =>
    simp only [authWalk]
    repeat' split
    all_goals simp_all [kindsAll, kindOK, Event.kind?, List.all_append]

/-- The endpoints walk issues only endpoint-kind remote calls. -/
theorem endpointWalk_kinds (svc : Svc) :
    ∀ es, kindsAll Kind.endpoint (endpointWalk svc es).1 = true := by
  intro es
  induction es with
  | nil => rfl
  | cons e t ih =>
    simp only [endpointWalk]
    repeat' split
    all_goals simp_all [kindsAll, kindOK, Event.kind?, List.all_append]

/-- The managed-zones walk issues only zone-kind remote calls. -/
theorem zoneWalk_kinds (svc : Svc) :
    ∀ es, kindsAll Kind.zone (zoneWalk svc es).1 = true := by
  intro es
  induction es with
  | nil => rfl
  | cons e t ih =>
    simp only [zoneWalk]
    repeat' split
    all_goals simp_all [kindsAll, kindOK, Event.kind?, List.all_append]

/-- The custom-connectors walk issues only custom-connector remote
calls. -/
theorem ccWalk_kinds (sep : String) (svc : Svc) :
    ∀ es, kindsAll Kind.customConn (ccWalk sep svc es).1 = true := by
  intro es
  induction es with
  | nil => rfl
  | cons e t ih =>
    simp only [ccWalk]
    repeat' split
    all_goals simp_all [kindsAll, kindOK, Event.kind?, List.all_append]

/-- The connectors walk issues only connector-kind remote calls. -/
theorem connWalk_kinds (g c w : Bool) (svc : Svc) :
    ∀ es, kindsAll Kind.conn (connWalk g c w svc es).1 = true := by
  intro es
  induction es with
  | nil => rfl
  | cons e t ih =>
    simp only [connWalk]
    repeat' split
    all_goals simp_all [kindsAll, kindOK, Event.kind?, List.all_append]

/-- The SFDC-instances walk issues only instance-kind remote calls. -/
theorem sfdcInstWalk_kinds (svc : Svc) :
    ∀ es, kindsAll Kind.sfdcInst (sfdcInstWalk svc es).1 = true := by
  intro es
  induction es with
  | nil => rfl
  | cons e t ih =>
    simp only [sfdcInstWalk]
    repeat' split
    all_goals simp_all [kindsAll, kindOK, Event.kind?, List.all_append]

/-- The SFDC-channels walk issues only channel-kind remote calls. -/
theorem sfdcChanWalk_kinds (sep : String) (svc : Svc) :
    ∀ es, kindsAll Kind.sfdcChan (sfdcChanWalk sep svc es).1 = true := by
  intro es
  induction es with
  | nil => rfl
  | cons e t ih =>
    simp only [sfdcChanWalk]
    repeat' split
    all_goals simp_all [kindsAll, kindOK, Event.kind?, List.all_append]

/-- Log lines produced by mapping carry no kind. -/
theorem kindsAll_map_logInfo {α : Type} (K : Kind) (f : α → String) (l : List α) :
    kindsAll K (l.map (fun x => Event.logInfo (f x))) = true := by
  simp [kindsAll, List.all_map, kindOK, Event.kind?, Function.comp]

/-- Kind homogeneity distributes over append. -/
theorem kindsAll_append (K : Kind) (a b : List Event) :
    kindsAll K (a ++ b) = (kindsAll K a && kindsAll K b) := by
  simp [kindsAll]

/-- The test-case read loop issues only integration-kind remote calls. -/
theorem tcLoop_kinds (svc : Svc) (src : Option SrcFolder) (nm version : String) :
    ∀ files, kindsAll Kind.integ (tcLoop svc src nm version files).1 = true := by
  intro files
  induction files with
  | nil => rfl
  | cons f t ih =>
    simp only [tcLoop]
    repeat' split
    all_goals simp_all [kindsAll, kindOK, Event.kind?, List.all_append]

/-- The test-case step issues only integration-kind remote calls. -/
theorem runTestCases_kinds (svc : Svc) (src : Option SrcFolder) (nm version : String) :
    kindsAll Kind.integ (runTestCases svc src nm version).1 = true := by
  simp only [runTestCases]
  rw [kindsAll_append, Bool.and_eq_true]
  exact ⟨kindsAll_map_logInfo _ _ _, tcLoop_kinds _ _ _ _ _⟩

/-- The code-folder scan emits only log lines. -/
theorem processCodeFolders_kinds (K : Kind) (js jn : List Entry) :
    kindsAll K (processCodeFolders js jn).1 = true := by
  simp only [processCodeFolders]
  repeat' split
  all_goals
    first
    | exact kindsAll_map_logInfo _ _ _
    | (rw [kindsAll_append, Bool.and_eq_true];
       exact ⟨kindsAll_map_logInfo _ _ _, kindsAll_map_logInfo _ _ _⟩)

/-- An empty trace is homogeneous. -/
theorem kindsAll_nil (K : Kind) : kindsAll K [] = true := rfl

/-- An info log preserves homogeneity. -/
theorem kindsAll_cons_logInfo (K : Kind) (m : String) (l : List Event) :
    kindsAll K (Event.logInfo m :: l) = kindsAll K l := by
  simp [kindsAll, kindOK, Event.kind?]

/-- A warning log preserves homogeneity. -/
theorem kindsAll_cons_logWarning (K : Kind) (m : String) (l : List Event) :
    kindsAll K (Event.logWarning m :: l) = kindsAll K l := by
  simp [kindsAll, kindOK, Event.kind?]

/-- A version-create call is of integration kind. -/
theorem kindsAll_cons_createIntegrationVersion (n : String) (b : Body) (o : String)
    (l : List Event) :
    kindsAll Kind.integ (Event.createIntegrationVersion n b o :: l) = kindsAll Kind.integ l := by
  simp [kindsAll, kindOK, Event.kind?]

/-- A test-case-create call is of integration kind. -/
theorem kindsAll_cons_createTestCase (n v ct : String) (l : List Event) :
    kindsAll Kind.integ (Event.createTestCase n v ct :: l) = kindsAll Kind.integ l := by
  simp [kindsAll, kindOK, Event.kind?]

/-- A publish call is of integration kind. -/
theorem kindsAll_cons_publishIntegration (n v cv : String) (l : List Event) :
    kindsAll Kind.integ (Event.publishIntegration n v cv :: l) = kindsAll Kind.integ l := by
  simp [kindsAll, kindOK, Event.kind?]

/-- A result-artifact write is of integration kind. -/
theorem kindsAll_cons_writeResults (st : String) (l : List Event) :
    kindsAll Kind.integ (Event.writeResults st :: l) = kindsAll Kind.integ l := by
  simp [kindsAll, kindOK, Event.kind?]

set_option maxHeartbeats 2000000 in
/-- The integration publisher issues only integration-kind remote
calls. -/
theorem processIntegration_kinds (svc : Svc) (src : Option SrcFolder) (overrides : Option FC)
    (configVars : List (String × FC)) (pipeline userLabel outputGCSPath : String)
    (gp : Bool) :
    kindsAll Kind.integ
      (processIntegration svc src overrides configVars pipeline userLabel outputGCSPath gp).1
      = true := by
  have h1 := processCodeFolders_kinds Kind.integ
  have h2 := runTestCases_kinds svc
  have h3 := @kindsAll_map_logInfo Entry Kind.integ
  simp only [processIntegration]
  repeat' split
  all_goals
    simp only [kindsAll_append, kindsAll_nil, kindsAll_cons_logInfo, kindsAll_cons_logWarning,
      kindsAll_cons_createIntegrationVersion, kindsAll_cons_createTestCase,
      kindsAll_cons_publishIntegration, kindsAll_cons_writeResults, h1, h2, h3,
      Bool.and_eq_true, and_true, true_and, and_self]

/-- Kind homogeneity of the auth-configs step. -/
theorem processAuthConfigs_kinds (folder : Option (List Entry)) (svc : Svc) :
    kindsAll Kind.auth (processAuthConfigs folder svc).1 = true := by
  cases folder with
  | none => rfl
  | some es => exact authWalk_kinds svc es

/-- Kind homogeneity of the endpoints step. -/
theorem processEndpoints_kinds (folder : Option (List Entry)) (svc : Svc) :
    kindsAll Kind.endpoint (processEndpoints folder svc).1 = true := by
  cases folder with
  | none => rfl
  | some es => exact endpointWalk_kinds svc es

/-- Kind homogeneity of the managed-zones step. -/
theorem processManagedZones_kinds (folder : Option (List Entry)) (svc : Svc) :
    kindsAll Kind.zone (processManagedZones folder svc).1 = true := by
  cases folder with
  | none => rfl
  | some es => exact zoneWalk_kinds svc es

/-- Kind homogeneity of the custom-connectors step. -/
theorem processCustomConnectors_kinds (folder : Option (List Entry)) (sep : String) (svc : Svc) :
    kindsAll Kind.customConn (processCustomConnectors folder sep svc).1 = true := by
  cases folder with
  | none => rfl
  | some es => exact ccWalk_kinds sep svc es

/-- Kind homogeneity of the connectors step. -/
theorem processConnectors_kinds (folder : Option (List Entry)) (g c w : Bool) (svc : Svc) :
    kindsAll Kind.conn (processConnectors folder g c w svc).1 = true := by
  cases folder with
  | none => rfl
  | some es => exact connWalk_kinds g c w svc es

/-- Kind homogeneity of the SFDC-instances step. -/
theorem processSfdcInstances_kinds (folder : Option (List Entry)) (svc : Svc) :
    kindsAll Kind.sfdcInst (processSfdcInstances folder svc).1 = true := by
  cases folder with
  | none => rfl
  | some es => exact sfdcInstWalk_kinds svc es

/-- Kind homogeneity of the SFDC-channels step. -/
theorem processSfdcChannels_kinds (folder : Option (List Entry)) (sep : String) (svc : Svc) :
    kindsAll Kind.sfdcChan (processSfdcChannels folder sep svc).1 = true := by
  cases folder with
  | none => rfl
  | some es => exact sfdcChanWalk_kinds sep svc es

/-- The integration stage is sorted with ranks at least 7. -/
theorem stepIntegration_sorted (svc : Svc) (s : Scaffold) (fl : Flags) :
    (kindsOf (stepIntegration svc s fl).1).Pairwise (fun a b => kindRank a ≤ kindRank b)
    ∧ ∀ x ∈ kindsOf (stepIntegration svc s fl).1, 7 ≤ kindRank x := by
  have h := kindsAll_mem Kind.integ _
    (processIntegration_kinds svc s.src s.overrides s.configVars fl.pipeline fl.userLabel
      fl.outputGCSPath fl.grantPermission)
  exact ⟨pairwise_of_all_eq _ _ h, fun x hx => by rw [h x hx]; exact le_refl _⟩

/-- The chain from the SFDC-channels step is sorted with ranks at
least 6. -/
theorem stepFromSfdcChannels_sorted (svc : Svc) (s : Scaffold) (fl : Flags) :
    (kindsOf (stepFromSfdcChannels svc s fl).1).Pairwise (fun a b => kindRank a ≤ kindRank b)
    ∧ ∀ x ∈ kindsOf (stepFromSfdcChannels svc s fl).1, 6 ≤ kindRank x := by
  obtain ⟨hp, hge⟩ := stepIntegration_sorted svc s fl
  exact sorted_andThen _ _ Kind.sfdcChan 6 (le_refl _)
    (processSfdcChannels_kinds _ _ _) hp
    (fun x hx => le_trans (by decide) (hge x hx))

/-- The chain from the SFDC-instances step is sorted with ranks at
least 5. -/
theorem stepFromSfdcInstances_sorted (svc : Svc) (s : Scaffold) (fl : Flags) :
    (kindsOf (stepFromSfdcInstances svc s fl).1).Pairwise (fun a b => kindRank a ≤ kindRank b)
    ∧ ∀ x ∈ kindsOf (stepFromSfdcInstances svc s fl).1, 5 ≤ kindRank x := by
  obtain ⟨hp, hge⟩ := stepFromSfdcChannels_sorted svc s fl
  exact sorted_andThen _ _ Kind.sfdcInst 5 (le_refl _)
    (processSfdcInstances_kinds _ _) hp
    (fun x hx => le_trans (by decide) (hge x hx))

/-- The chain from the custom-connectors step is sorted with ranks at
least 3. -/
theorem stepFromConnectors_sorted (svc : Svc) (s : Scaffold) (fl : Flags) :
    (kindsOf (stepFromConnectors svc s fl).1).Pairwise (fun a b => kindRank a ≤ kindRank b)
    ∧ ∀ x ∈ kindsOf (stepFromConnectors svc s fl).1, 3 ≤ kindRank x := by
  obtain ⟨hp5, hge5⟩ := stepFromSfdcInstances_sorted svc s fl
  by_cases hskip : fl.skipConnectors = true
  · simp only [stepFromConnectors, hskip, if_true, ite_true]
    exact sorted_andThen _ _ Kind.customConn 3 (le_refl _) rfl hp5
      (fun x hx => le_trans (by decide) (hge5 x hx))
  · have hskip' : fl.skipConnectors = false := by simp at hskip; exact hskip
    simp only [stepFromConnectors, hskip', Bool.false_eq_true, if_false, ite_false]
    have hinner := sorted_andThen
      (processConnectors s.connectors fl.grantPermission fl.createSecret fl.waitForConnector svc)
      (fun _ => stepFromSfdcInstances svc s fl) Kind.conn 4 (le_refl _)
      (processConnectors_kinds _ _ _ _ _) hp5
      (fun x hx => le_trans (by decide) (hge5 x hx))
    exact sorted_andThen _ _ Kind.customConn 3 (le_refl _)
      (processCustomConnectors_kinds _ _ _) hinner.1
      (fun x hx => le_trans (by decide) (hinner.2 x hx))

/-- The chain from the managed-zones step is sorted with ranks at
least 2. -/
theorem stepFromZones_sorted (svc : Svc) (s : Scaffold) (fl : Flags) :
    (kindsOf (stepFromZones svc s fl).1).Pairwise (fun a b => kindRank a ≤ kindRank b)
    ∧ ∀ x ∈ kindsOf (stepFromZones svc s fl).1, 2 ≤ kindRank x := by
  obtain ⟨hp, hge⟩ := stepFromConnectors_sorted svc s fl
  exact sorted_andThen _ _ Kind.zone 2 (le_refl _)
    (processManagedZones_kinds _ _) hp
    (fun x hx => le_trans (by decide) (hge x hx))

/-- The chain from the endpoints step is sorted with ranks at least 1. -/
theorem stepFromEndpoints_sorted (svc : Svc) (s : Scaffold) (fl : Flags) :
    (kindsOf (stepFromEndpoints svc s fl).1).Pairwise (fun a b => kindRank a ≤ kindRank b)
    ∧ ∀ x ∈ kindsOf (stepFromEndpoints svc s fl).1, 1 ≤ kindRank x := by
  obtain ⟨hp, hge⟩ := stepFromZones_sorted svc s fl
  exact sorted_andThen _ _ Kind.endpoint 1 (le_refl _)
    (processEndpoints_kinds _ _) hp
    (fun x hx => le_trans (by decide) (hge x hx))

/-- A whole apply run is sorted by kind rank. -/
theorem runApply_sorted (svc : Svc) (s : Scaffold) (fl : Flags) :
    (kindsOf (runApply svc s fl).1).Pairwise (fun a b => kindRank a ≤ kindRank b) := by
  obtain ⟨hp, hge⟩ := stepFromEndpoints_sorted svc s fl
  by_cases hskip : fl.skipAuthconfigs = true
  · simp only [runApply, hskip, if_true, ite_true]
    exact (sorted_andThen ([Event.logInfo "Skipping applying authconfigs configuration"], none)
      (fun _ => stepFromEndpoints svc s fl) Kind.auth 0 (Nat.zero_le _) (by rfl) hp
      (fun x hx => le_trans (Nat.zero_le _) (hge x hx))).1
  · have hskip' : fl.skipAuthconfigs = false := by simp at hskip; exact hskip
    simp only [runApply, hskip', Bool.false_eq_true, if_false, ite_false]
    exact (sorted_andThen _ _ Kind.auth 0 (Nat.zero_le _)
      (processAuthConfigs_kinds _ _) hp
      (fun x hx => le_trans (Nat.zero_le _) (hge x hx))).1

/-- C9: every apply run processes the resource kinds in the fixed order
auth configs, endpoints, managed zones, custom connectors, connectors,
SFDC instances, SFDC channels, integration (the remote-call kinds of
any run's trace are sorted by that rank); the skip-authconfigs flag
replaces only the auth step with a log line, leaving the rest of the
chain — which issues no auth-kind call — unchanged; the single
skip-connectors flag replaces both the custom-connectors step and the
connectors step with one log line, and the remaining chain issues no
call of either kind; and an absent kind folder makes its step a no-op
(empty trace, no error), the integration step degrading to a warning. -/
theorem c9_orchestrator_order (svc : Svc) (s : Scaffold) (fl : Flags)
    (pipeline userLabel outputGCSPath sep : String) (g c w : Bool) :
    (kindsOf (runApply svc s fl).1).Pairwise (fun a b => kindRank a ≤ kindRank b)
    ∧ runApply svc s { fl with skipAuthconfigs := true }
        = (Event.logInfo "Skipping applying authconfigs configuration"
             :: (stepFromEndpoints svc s fl).1,
           (stepFromEndpoints svc s fl).2)
    ∧ Kind.auth ∉ kindsOf (stepFromEndpoints svc s fl).1
    ∧ stepFromConnectors svc s { fl with skipConnectors := true }
        = (Event.logInfo "Skipping applying connector configuration"
             :: (stepFromSfdcInstances svc s fl).1,
           (stepFromSfdcInstances svc s fl).2)
    ∧ Kind.customConn ∉ kindsOf (stepFromSfdcInstances svc s fl).1
    ∧ Kind.conn ∉ kindsOf (stepFromSfdcInstances svc s fl).1
    ∧ processAuthConfigs none svc = ([], none)
    ∧ processEndpoints none svc = ([], none)
    ∧ processManagedZones none svc = ([], none)
    ∧ processCustomConnectors none sep svc = ([], none)
    ∧ processConnectors none g c w svc = ([], none)
    ∧ processSfdcInstances none svc = ([], none)
    ∧ processSfdcChannels none sep svc = ([], none)
    ∧ processIntegration svc none none [] pipeline userLabel outputGCSPath g
        = ([Event.logWarning "No integration files were found"], none) := by
  refine ⟨runApply_sorted svc s fl, ?_, ?_, ?_, ?_, ?_, rfl, rfl, rfl, rfl, rfl, rfl, rfl, ?_⟩
  · simp only [runApply, andThen]
    exact Prod.ext rfl rfl
  · intro hmem
    have := (stepFromEndpoints_sorted svc s fl).2 Kind.auth hmem
    simp [kindRank] at this
  · simp only [stepFromConnectors, andThen]
    exact Prod.ext rfl rfl
  · intro hmem
    have := (stepFromSfdcInstances_sorted svc s fl).2 Kind.customConn hmem
    simp [kindRank] at this
  · intro hmem
    have := (stepFromSfdcInstances_sorted svc s fl).2 Kind.conn hmem
    simp [kindRank] at this
  · rfl
